import Mathlib

/-! # Insightify: the metric-ingestion pipeline

A shallow embedding of `server/src/middleware/analytics.js`, of the track
route and the aggregation handlers of `server/src/routes/analytics.js`, of
the static `getRoutePerformance` of `server/src/models/Metric.js`, of
`deleteProject` of `server/src/routes/projects.js` and of the socket handlers
of `server/src/index.js`, with the properties of the admission controller,
the telemetry recorder, the tenant authenticator, the aggregation engine and
the live fan-out that the specification states about them.

Conventions of the embedding:

* millisecond clock readings (`Date.now()`) and durations are integers (`Int`);
* a JavaScript `Map` is an insertion-ordered association list (`JSMap`) whose
  keys are compared with a decidable equality standing for the key equality
  of `Map` (SameValueZero);
* a middleware either hands the request on (`Flow.next`) or answers it
  (`Flow.respond`);
* a value of the query string is what the query parser of Express makes of
  the URL, a string or an object of the query language (`QueryValue`), and it
  reaches a database filter as it is;
* the numbers an aggregation computes by division (rates, averages, the
  lookback range in hours) are exact rationals (`ℚ`);
* a query with `sort` is a filter followed by a stable sort, and a grouping
  (a `forEach` over a dictionary, or a `$group` stage) keeps the groups in the
  order in which their keys first occur.
-/

namespace Insightify

/-! ## JavaScript `Map` -/

/-- Association list standing for a JavaScript `Map`, in insertion order. -/
structure JSMap (κ : Type) (β : Type) where
  entries : List (κ × β)
deriving DecidableEq, Repr

namespace JSMap

variable {κ β : Type} [DecidableEq κ]

/-- The empty map, `new Map()`. -/
def empty : JSMap κ β := ⟨[]⟩

/-- Lookup in the entry list: the value of the first entry with the key. -/
def lookup : List (κ × β) → κ → Option β
  | [], _ => none
  | (k', v) :: rest, k => if k' = k then some v else lookup rest k

/-- Update of the entry list: overwrite in place, or append a new entry. -/
def update : List (κ × β) → κ → β → List (κ × β)
  | [], k, v => [(k, v)]
  | (k', v') :: rest, k, v =>
      if k' = k then (k', v) :: rest else (k', v') :: update rest k v

/-- The method `Map.prototype.get`; `none` stands for `undefined`. -/
def get (m : JSMap κ β) (k : κ) : Option β := lookup m.entries k

/-- The method `Map.prototype.has`. -/
def has (m : JSMap κ β) (k : κ) : Bool := (lookup m.entries k).isSome

/-- The method `Map.prototype.set`. -/
def set (m : JSMap κ β) (k : κ) (v : β) : JSMap κ β := ⟨update m.entries k v⟩

end JSMap

/-! ## Responses and control flow -/

/-- The JSON bodies the pipeline sends: `success`, `message`, and the
`retryAfter` field that only the rate limiter sets. -/
structure JsonBody where
  success : Bool
  message : String
  retryAfter : Option Int
deriving DecidableEq, Repr

/-- A response: the status set by `res.status` (200 when never set) and the body. -/
structure Response where
  status : Nat
  body : JsonBody
deriving DecidableEq, Repr

/-- What a middleware does with a request: call `next()` or answer it. -/
inductive Flow where
  | next
  | respond (r : Response)
deriving DecidableEq, Repr

/-! ## Admission controller: `projectRateLimit` -/

/-- The value `Math.ceil(a / b)` for integer `a` and positive integer `b`. -/
def ceilDiv (a b : Int) : Int := -((-a) / b)

/-- The per-limiter state: the `requests` map from `req.projectId` to the
array of admitted timestamps. -/
abbrev Requests (κ : Type) := JSMap κ (List Int)

/-- The 429 response of the rate limiter. -/
def rateLimitExceeded (windowMs : Int) : Response :=
  { status := 429
    body := { success := false
              message := "Rate limit exceeded for this project"
              retryAfter := some (ceilDiv windowMs 1000) } }

/-- One call of the middleware returned by `projectRateLimit(windowMs, max)`,
for a request whose `req.projectId` is `projectId`, with `Date.now()` reading
`now`: the new `requests` map and what the middleware did. -/
def projectRateLimit {κ : Type} [DecidableEq κ] (windowMs max : Int)
    (requests : Requests κ) (projectId : κ) (now : Int) : Requests κ × Flow :=
  let windowStart := now - windowMs
  let requests := if requests.has projectId then requests else requests.set projectId []
  let projectRequests := (requests.get projectId).getD []
  let validRequests := projectRequests.filter (fun time => time > windowStart)
  let requests := requests.set projectId validRequests
  if (validRequests.length : Int) ≥ max then
    (requests, Flow.respond (rateLimitExceeded windowMs))
  else
    let validRequests := validRequests ++ [now]
    (requests.set projectId validRequests, Flow.next)

/-- The log of a tenant key: its array in `requests`, empty when absent. -/
def logOf {κ : Type} [DecidableEq κ] (requests : Requests κ) (projectId : κ) : List Int :=
  (requests.get projectId).getD []

/-- The timestamps of a log that a call at `now` keeps: line 129 of the
middleware, `projectRequests.filter(time => time > windowStart)`. -/
def validRequests (windowMs : Int) (log : List Int) (now : Int) : List Int :=
  log.filter (fun time => time > now - windowMs)

/-- A sequence of calls of one limiter, each a pair of the request's
`req.projectId` and the clock reading: the final map and, in order, what the
middleware did on each call. -/
def runCalls {κ : Type} [DecidableEq κ] (windowMs max : Int) :
    Requests κ → List (κ × Int) → Requests κ × List Flow
  | requests, [] => (requests, [])
  | requests, (projectId, now) :: rest =>
      let r := projectRateLimit windowMs max requests projectId now
      let rs := runCalls windowMs max r.1 rest
      (rs.1, r.2 :: rs.2)

/-! ## Tenant registry -/

/-- A MongoDB ObjectId as the running program holds it: a JavaScript object.
`ref` is the identity of the object (two ObjectId objects are the same key of
a `Map` exactly when they are the same object), `hex` is its 24-digit value. -/
structure ObjectId where
  ref : Nat
  hex : String
deriving DecidableEq, Repr

/-- A project (tenant) as stored in the `Project` collection: the fields of
`models/Project.js` that the pipeline reads. -/
structure Project where
  id : String
  owner : String
  apiKey : String
  isActive : Bool
deriving DecidableEq, Repr

/-- A project document as a query returns it: `_id` is an ObjectId object. -/
structure ProjectDoc where
  _id : ObjectId
  owner : String
  apiKey : String
  isActive : Bool
deriving DecidableEq, Repr

/-- Hydration of a stored project into a document. Every query deserialises
its result anew, so the document's `_id` is a newly allocated ObjectId object:
its identity is the next free reference `nextRef` of the heap. -/
def Project.hydrate (nextRef : Nat) (p : Project) : ProjectDoc :=
  { _id := { ref := nextRef, hex := p.id }
    owner := p.owner
    apiKey := p.apiKey
    isActive := p.isActive }

/-- A value that `req.headers['x-api-key'] || req.query.apiKey` can have. The
header is a string. The query parameter is what the query parser of Express
makes of the URL: a string for `?apiKey=s`, and the object `{ $ne: s }` for
`?apiKey[$ne]=s`. -/
inductive QueryValue where
  | str (s : String)
  | ne (s : String)
deriving DecidableEq, Repr

/-- JavaScript truthiness of a value: the empty string is falsy, every other
string and every object is truthy. -/
def QueryValue.truthy : QueryValue → Bool
  | QueryValue.str s => decide (s ≠ "")
  | QueryValue.ne _ => true

/-- The condition that the filter `{ apiKey: v }` puts on the stored `apiKey`
of a project: equality with a string `v`, and the query operator `$ne` for the
object `{ $ne: s }`, which every stored key other than `s` satisfies. -/
def QueryValue.selects (v : QueryValue) (stored : String) : Bool :=
  match v with
  | QueryValue.str s => decide (stored = s)
  | QueryValue.ne s => decide (stored ≠ s)

/-- The query `Project.findOne({ apiKey, isActive: true })` over the stored
projects: the first active project whose key satisfies the condition `apiKey`.
The value of `apiKey` goes into the filter as it came from the request. -/
def Project.findOne (projects : List Project) (nextRef : Nat) (apiKey : QueryValue) :
    Option ProjectDoc :=
  (projects.find? (fun p => apiKey.selects p.apiKey && p.isActive)).map
    (Project.hydrate nextRef)

/-! ## Requests, metric records, server state -/

/-- The parts of an Express request that the pipeline reads or sets. -/
structure Req where
  /-- The header `req.headers['x-api-key']`. -/
  xApiKey : Option String
  /-- The query parameter `req.query.apiKey`, as the query parser delivers it. -/
  queryApiKey : Option QueryValue
  /-- The matched route's path, `req.route?.path`. -/
  routePath : Option String
  path : String
  method : String
  ip : Option String
  /-- The socket's address, `req.connection.remoteAddress`. -/
  remoteAddress : Option String
  userAgent : Option String
  referer : Option String
  /-- The header `Content-Length`, a decimal number when present. -/
  contentLength : Option Nat
  /-- The id of an authenticated user, `req.user?.id`. -/
  userId : Option String
  sessionID : Option String
  /-- The JSON body of the request. -/
  body : String
  /-- The tenant id that `validateProject` attaches. -/
  projectId : Option ObjectId
  /-- The tenant document that `validateProject` attaches. -/
  project : Option ProjectDoc
deriving DecidableEq, Repr

/-- The state of the response object when `res.send(data)` runs. -/
structure Res where
  statusCode : Nat
  contentType : Option String
  contentLength : Option String
deriving DecidableEq, Repr

structure Route where
  path : String
  method : String
deriving DecidableEq, Repr

structure RequestInfo where
  ip : Option String
  userAgent : Option String
  userId : Option String
  sessionId : Option String
  referer : Option String
  size : Nat
deriving DecidableEq, Repr

structure ResponseHeaders where
  contentType : Option String
  contentLength : Option String
deriving DecidableEq, Repr

structure ResponseInfo where
  statusCode : Nat
  size : Nat
  headers : ResponseHeaders
deriving DecidableEq, Repr

structure Performance where
  responseTime : Int
deriving DecidableEq, Repr

structure ErrorInfo where
  isError : Bool
  message : Option String
deriving DecidableEq, Repr

/-- A metric record: the object `analyticsData` handed to `Metric.create`,
with the fields of `models/Metric.js` that the recorder fills. The tenant is
referenced by the value of its id. -/
structure Metric where
  projectId : Option String
  timestamp : Int
  route : Route
  request : RequestInfo
  response : ResponseInfo
  performance : Performance
  error : ErrorInfo
deriving DecidableEq, Repr

/-- The payload of a `metric-update` event (its `type` is always `request`)
together with the room it is emitted to. -/
structure MetricUpdate where
  room : String
  route : Route
  responseTime : Int
  statusCode : Nat
  timestamp : Int
deriving DecidableEq, Repr

/-- The state of the server that the track pipeline reads and writes. -/
structure Server where
  /-- The `Project` collection. -/
  projects : List Project
  /-- The `Metric` collection, in insertion order. -/
  metrics : List Metric
  /-- The `requests` map of the limiter created for the track route. -/
  requests : Requests (Option ObjectId)
  /-- The `metric-update` events emitted so far, in order. -/
  emitted : List MetricUpdate
  /-- Whether `app.get('io')` is set (`index.js` sets it at start-up). -/
  io : Bool
  /-- The next free object reference of the heap. -/
  nextRef : Nat
deriving DecidableEq, Repr

/-- What the environment decides during one request: the clock readings and
whether the two store operations complete. -/
structure Env where
  /-- Whether `Project.findOne` completes (it throws otherwise). -/
  registryUp : Bool
  /-- The reading of `Date.now()` in the rate limiter. -/
  now : Int
  /-- The reading of `Date.now()` when `collectAnalytics` starts. -/
  startTime : Int
  /-- The reading of `Date.now()` when `res.send` runs. -/
  endTime : Int
  /-- The reading of `new Date()` taken for the record. -/
  timestamp : Int
  /-- Whether `Metric.create` completes (it throws otherwise). -/
  persistOk : Bool
deriving DecidableEq, Repr

/-- The server as `index.js` starts it over a given `Project` collection. -/
def Server.start (projects : List Project) : Server :=
  { projects := projects
    metrics := []
    requests := JSMap.empty
    emitted := []
    io := true
    nextRef := 0 }

/-! ## Tenant authenticator: `validateProject` -/

/-- The JavaScript `a || b` on optional strings: `undefined` and the empty
string are falsy. -/
def orElse (a b : Option String) : Option String :=
  match a with
  | some s => if s = "" then b else some s
  | none => b

/-- A rejection body `{ success: false, message }`. -/
def failure (status : Nat) (message : String) : Response :=
  { status := status, body := { success := false, message := message, retryAfter := none } }

/-- The expression `req.headers['x-api-key'] || req.query.apiKey`: the header
when it is truthy, otherwise the query parameter, whatever its type. -/
def apiKeyOf (header : Option String) (query : Option QueryValue) : Option QueryValue :=
  match header with
  | some s => if s = "" then query else some (QueryValue.str s)
  | none => query

/-- The middleware `validateProject`: the server (a found document takes one
object reference), the request with the tenant attached, and the flow. The
test `!apiKey` rejects `undefined` and the empty string only. -/
def validateProject (registryUp : Bool) (st : Server) (req : Req) : Server × Req × Flow :=
  let apiKey := apiKeyOf req.xApiKey req.queryApiKey
  match apiKey with
  | none => (st, req, Flow.respond (failure 401 "API key is required"))
  | some apiKey =>
    if !apiKey.truthy then (st, req, Flow.respond (failure 401 "API key is required"))
    else if !registryUp then
      (st, req, Flow.respond (failure 500 "Server error in project validation"))
    else
      match Project.findOne st.projects st.nextRef apiKey with
      | none => (st, req, Flow.respond (failure 401 "Invalid or inactive API key"))
      | some project =>
        ({ st with nextRef := st.nextRef + 1 },
          { req with projectId := some project._id, project := some project },
          Flow.next)

/-! ## Telemetry recorder: `collectAnalytics` -/

/-- The object `analyticsData` built inside the overridden `res.send(data)`. -/
def analyticsData (req : Req) (res : Res) (data : String) (responseTime timestamp : Int) :
    Metric :=
  { projectId := req.projectId.map (fun o => o.hex)
    timestamp := timestamp
    route := { path := (orElse req.routePath (some req.path)).getD req.path
               method := req.method }
    request := { ip := orElse req.ip req.remoteAddress
                 userAgent := req.userAgent
                 userId := req.userId
                 sessionId := req.sessionID
                 referer := req.referer
                 size := req.contentLength.getD 0 }
    response := { statusCode := res.statusCode
                  size := data.utf8ByteSize
                  headers := { contentType := res.contentType
                               contentLength := res.contentLength } }
    performance := { responseTime := responseTime }
    error := { isError := decide (res.statusCode ≥ 400)
               message := if res.statusCode ≥ 400 then some ("HTTP " ++ toString res.statusCode)
                          else none } }

/-- The room a tenant's events go to, the template `project-${req.projectId}`. -/
def roomOf (projectId : Option ObjectId) : String :=
  "project-" ++ (match projectId with
    | some o => o.hex
    | none => "undefined")

/-- The callback handed to `setImmediate`: store the record and, once it is
stored, emit the `metric-update` event; a failing `Metric.create` is caught
and only logged. -/
def saveAnalytics (persistOk : Bool) (st : Server) (req : Req) (res : Res)
    (record : Metric) (responseTime : Int) : Server :=
  if persistOk then
    let st := { st with metrics := st.metrics ++ [record] }
    if st.io then
      { st with emitted := st.emitted ++ [{ room := roomOf req.projectId
                                            route := record.route
                                            responseTime := responseTime
                                            statusCode := res.statusCode
                                            timestamp := record.timestamp }] }
    else st
  else st

/-- The function that `collectAnalytics` installs as `res.send`, for the
request started at `startTime`: it measures, builds the record, schedules
`saveAnalytics` and calls the original `send`. The result is the server after
the scheduled callback has run. -/
def send (env : Env) (st : Server) (req : Req) (res : Res) (data : String) : Server :=
  let responseTime := env.endTime - env.startTime
  let record := analyticsData req res data responseTime env.timestamp
  saveAnalytics env.persistOk st req res record responseTime

/-! ## The track route -/

/-- The text `res.json` sends for the handler's body. -/
def trackedJson : String :=
  "\x7b\"success\":true,\"message\":\"Analytics tracked successfully\"\x7d"

/-- The response of the track handler. -/
def tracked : Response :=
  { status := 200
    body := { success := true, message := "Analytics tracked successfully", retryAfter := none } }

/-- The array `trackAnalytics`: `validateProject`, then
`projectRateLimit(15 * 60 * 1000, 1000)`, then `collectAnalytics`, then the
handler, whose `res.json` reaches the installed `res.send` with status 200. -/
def trackAnalytics (st : Server) (req : Req) (env : Env) : Server × Response :=
  match validateProject env.registryUp st req with
  | (st, _, Flow.respond r) => (st, r)
  | (st, req, Flow.next) =>
    match projectRateLimit (15 * 60 * 1000) 1000 st.requests req.projectId env.now with
    | (requests, Flow.respond r) => ({ st with requests := requests }, r)
    | (requests, Flow.next) =>
      let st := { st with requests := requests }
      let res : Res := { statusCode := 200
                         contentType := some "application/json"
                         contentLength := none }
      (send env st req res trackedJson, tracked)

/-- What a client sends to `POST /api/analytics/track`. -/
structure TrackCall where
  xApiKey : Option String
  queryApiKey : Option QueryValue
  ip : Option String
  remoteAddress : Option String
  userAgent : Option String
  referer : Option String
  contentLength : Option Nat
  body : String
deriving DecidableEq, Repr

/-- The request as the router hands it to `trackAnalytics`: the route is
`router.post('/track', ...)`, and no middleware before it sets `req.user` or
`req.sessionID`. -/
def trackReq (c : TrackCall) : Req :=
  { xApiKey := c.xApiKey
    queryApiKey := c.queryApiKey
    routePath := some "/track"
    path := "/track"
    method := "POST"
    ip := c.ip
    remoteAddress := c.remoteAddress
    userAgent := c.userAgent
    referer := c.referer
    contentLength := c.contentLength
    userId := none
    sessionID := none
    body := c.body
    projectId := none
    project := none }

/-- A sequence of requests to `POST /api/analytics/track`, served one after
the other: the final server and the responses in order. -/
def runTrack : Server → List (TrackCall × Env) → Server × List Response
  | st, [] => (st, [])
  | st, (c, env) :: rest =>
      let r := trackAnalytics st (trackReq c) env
      let rs := runTrack r.1 rest
      (rs.1, r.2 :: rs.2)

/-! ## A concrete deployment -/

/-- A registry entry: one active tenant. -/
def acme : Project :=
  { id := "65f0c0ffee0123456789abcd", owner := "u1", apiKey := "isk_acme", isActive := true }

/-- A track request carrying the credential of `acme` in the header. -/
def acmeCall : TrackCall :=
  { xApiKey := some "isk_acme"
    queryApiKey := none
    ip := some "10.0.0.1"
    remoteAddress := none
    userAgent := some "probe"
    referer := none
    contentLength := some 2
    body := "\x7b\x7d" }

/-- A track request without a credential. -/
def anonymousCall : TrackCall :=
  { acmeCall with xApiKey := none }

/-- A track request carrying the credential of `acme` as the string value of
the query parameter, `?apiKey=isk_acme`, without the header. -/
def queryCall : TrackCall :=
  { acmeCall with xApiKey := none, queryApiKey := some (QueryValue.str "isk_acme") }

/-- The request `POST /api/analytics/track?apiKey[$ne]=x` without the
`x-api-key` header: the query parameter is the object `{ $ne: 'x' }`. -/
def operatorCall : TrackCall :=
  { acmeCall with xApiKey := none, queryApiKey := some (QueryValue.ne "x") }

/-- An environment in which both stores work and the clock is set back by 5 ms
between the start of `collectAnalytics` and `res.send`. -/
def steppedBackEnv : Env :=
  { registryUp := true, now := 1000, startTime := 1005, endTime := 1000, timestamp := 1000,
    persistOk := true }

/-- An environment in which both stores work and the response takes 5 ms. -/
def quietEnv : Env :=
  { registryUp := true, now := 1000, startTime := 1000, endTime := 1005, timestamp := 1005,
    persistOk := true }

/-- The keys of the limiter's map are objects allocated earlier: every
ObjectId key has a reference below the next free one. -/
def Fresh (st : Server) : Prop :=
  ∀ e ∈ st.requests.entries, ∀ o : ObjectId, e.1 = some o → o.ref < st.nextRef

/-! ## Aggregation engine: numbers, grouping, replies -/

/-- The time value of `new Date(x)` for a finite number `x`: its integer
part, truncated toward zero. -/
def timeClip (x : ℚ) : Int := if 0 ≤ x then ⌊x⌋ else ⌈x⌉

/-- The function `Math.round`: the nearest integer, a half rounding up. -/
def mathRound (x : ℚ) : Int := ⌊x + 1 / 2⌋

/-- The method `toFixed(2)`: the number of hundredths that the resulting
string shows (the magnitude rounded to the nearest hundredth, a half rounding
up). -/
def toFixed2 (x : ℚ) : Int :=
  if x < 0 then -⌊-x * 100 + 1 / 2⌋ else ⌊x * 100 + 1 / 2⌋

/-- A rate field of a response: the number `0`, or the string made by
`toFixed(2)`, given by its hundredths. -/
inductive Rate where
  | number (x : ℚ)
  | fixed (hundredths : Int)
deriving DecidableEq, Repr

/-- One step of a grouping loop over a JavaScript object used as a
dictionary: `if (!groups[key]) groups[key] = init; update groups[key]`. A new
key is appended, an existing entry is updated in place. -/
def groupStep {α κ β : Type} [DecidableEq κ] (key : α → κ) (init : α → β)
    (step : β → α → β) (groups : JSMap κ β) (x : α) : JSMap κ β :=
  groups.set (key x) (step ((groups.get (key x)).getD (init x)) x)

/-- A grouping loop (`forEach` over the records, or a `$group` stage) from the
empty dictionary. -/
def groupFold {α κ β : Type} [DecidableEq κ] (key : α → κ) (init : α → β)
    (step : β → α → β) (l : List α) : JSMap κ β :=
  l.foldl (groupStep key init step) JSMap.empty

/-- What an aggregation handler answers: the data with status 200, 404
`Project not found`, or 500. -/
inductive Reply (α : Type) where
  | ok (data : α)
  | notFound
  | serverError
deriving DecidableEq, Repr

/-- What the environment decides during one dashboard query: the clock
reading and whether the two stores answer. -/
structure QueryEnv where
  now : Int
  /-- Whether `Project.findOne` completes (it throws otherwise). -/
  registryUp : Bool
  /-- Whether the query on `Metric` completes (it throws otherwise). -/
  metricsUp : Bool
deriving DecidableEq, Repr

/-- The ownership query `Project.findOne({ _id: projectId, owner: req.user.id })`. -/
def Project.findOwned (projects : List Project) (projectId owner : String) : Option Project :=
  projects.find? (fun p => decide (p.id = projectId) && decide (p.owner = owner))

/-- The start of the lookback window, `new Date(Date.now() - timeRange * 60 * 60 * 1000)`. -/
def startDate (now : Int) (timeRange : ℚ) : Int :=
  timeClip ((now : ℚ) - timeRange * 60 * 60 * 1000)

/-- The query `Metric.find({ projectId, timestamp: { $gte: startDate } })`,
extended with the error filter `'error.isError': true` when `errorsOnly` is
set, followed by `.sort({ timestamp: -1 })`. -/
def Metric.find (store : List Metric) (projectId : String) (start : Int)
    (errorsOnly : Bool) : List Metric :=
  (store.filter (fun m => decide (m.projectId = some projectId) &&
      decide (m.timestamp ≥ start) && (!errorsOnly || m.error.isError))).insertionSort
    (fun a b => a.timestamp ≥ b.timestamp)

/-! ## Live rolling window: `getRealtimeMetrics` -/

/-- The bucket width in minutes, `Math.max(1, Math.floor(timeRange * 60 / 20))`. -/
def interval (timeRange : ℚ) : Int := max 1 ⌊timeRange * 60 / 20⌋

/-- The start of a record's bucket, the time of
`new Date(Math.floor(metric.timestamp.getTime() / (interval * 60 * 1000)) * (interval * 60 * 1000))`.
The key `timeKey` of the dictionary is this date's string, which shows it. -/
def timeKey (interval : Int) (metric : Metric) : Int :=
  metric.timestamp / (interval * 60 * 1000) * (interval * 60 * 1000)

/-- An entry of `timeIntervals` while the records are visited. -/
structure TimeInterval where
  requests : Nat
  errors : Nat
  avgResponseTime : ℚ
  responseTimes : List Int
deriving DecidableEq, Repr

/-- The entry created for a new bucket. -/
def TimeInterval.init : TimeInterval :=
  { requests := 0, errors := 0, avgResponseTime := 0, responseTimes := [] }

/-- The update of a bucket's entry by one record. -/
def TimeInterval.add (i : TimeInterval) (metric : Metric) : TimeInterval :=
  { i with requests := i.requests + 1
           errors := if metric.error.isError then i.errors + 1 else i.errors
           responseTimes := i.responseTimes ++ [metric.performance.responseTime] }

/-- An entry of the `timeSeries` array of the response. -/
structure SeriesEntry where
  time : Int
  requests : Nat
  errors : Nat
  avgResponseTime : ℚ
  errorRate : ℚ
deriving DecidableEq, Repr

/-- The second loop and the mapping of `Object.entries`: the average and the
error rate of a bucket, `responseTimes` dropped, and `time` parsed back from
the key. -/
def TimeInterval.finish (time : Int) (i : TimeInterval) : SeriesEntry :=
  { time := time
    requests := i.requests
    errors := i.errors
    avgResponseTime := (i.responseTimes.sum : ℚ) / (i.responseTimes.length : ℚ)
    errorRate := (i.errors : ℚ) / (i.requests : ℚ) * 100 }

/-- The dictionary `timeIntervals` after the first loop. -/
def timeIntervals (interval : Int) (metrics : List Metric) : JSMap Int TimeInterval :=
  groupFold (timeKey interval) (fun _ => TimeInterval.init) TimeInterval.add metrics

/-- The array `timeSeries`: one entry per key of `timeIntervals`, sorted by
`new Date(a.time) - new Date(b.time)`. -/
def timeSeries (interval : Int) (metrics : List Metric) : List SeriesEntry :=
  ((timeIntervals interval metrics).entries.map
    (fun e => TimeInterval.finish e.1 e.2)).insertionSort (fun a b => a.time ≤ b.time)

/-- The `summary` object of the response. -/
structure Summary where
  totalRequests : Nat
  errorCount : Nat
  errorRate : Rate
  avgResponseTime : Int
deriving DecidableEq, Repr

/-- The summary computed from the fetched records. The average is
`sum / totalRequests || 0`: the `NaN` of an empty array becomes 0. -/
def summary (metrics : List Metric) : Summary :=
  let totalRequests := metrics.length
  let errorCount := (metrics.filter (fun m => m.error.isError)).length
  let avgResponseTime : ℚ :=
    if totalRequests = 0 then 0
    else ((metrics.map (fun m => m.performance.responseTime)).sum : ℚ) / (totalRequests : ℚ)
  { totalRequests := totalRequests
    errorCount := errorCount
    errorRate := if totalRequests > 0
      then Rate.fixed (toFixed2 ((errorCount : ℚ) / (totalRequests : ℚ) * 100))
      else Rate.number 0
    avgResponseTime := mathRound avgResponseTime }

/-- The `data` of the live rolling window's response. -/
structure RealtimeData where
  summary : Summary
  timeSeries : List SeriesEntry
deriving DecidableEq, Repr

/-- The records the live window fetches: the tenant's records from `startDate`
on, newest first, at most 1000 of them (`.limit(1000)`). -/
def realtimeFetch (store : List Metric) (projectId : String) (now : Int) (timeRange : ℚ) :
    List Metric :=
  (Metric.find store projectId (startDate now timeRange) false).take 1000

/-- The handler `getRealtimeMetrics` for the authenticated user `userId`;
`range` is the number given by `req.query.range`, absent when the parameter
is missing or empty. -/
def getRealtimeMetrics (st : Server) (env : QueryEnv) (userId projectId : String)
    (range : Option ℚ) : Reply RealtimeData :=
  if !env.registryUp then Reply.serverError
  else
    match Project.findOwned st.projects projectId userId with
    | none => Reply.notFound
    | some _ =>
      let timeRange := range.getD 1
      if !env.metricsUp then Reply.serverError
      else
        let metrics := realtimeFetch st.metrics projectId env.now timeRange
        Reply.ok { summary := summary metrics
                   timeSeries := timeSeries (interval timeRange) metrics }

/-! ## Route performance: `Metric.getRoutePerformance` -/

/-- The state of one group of the `$group` stage: the group key `_id` and the
accumulators (`$avg` keeps the sum of what `$sum: 1` counts). -/
structure RouteGroup where
  _id : Route
  totalRequests : Nat
  sumResponseTime : Int
  maxResponseTime : Int
  minResponseTime : Int
  errorCount : Nat
  successCount : Nat
deriving DecidableEq, Repr

/-- The group opened by its first record. -/
def RouteGroup.init (m : Metric) : RouteGroup :=
  { _id := m.route
    totalRequests := 0
    sumResponseTime := 0
    maxResponseTime := m.performance.responseTime
    minResponseTime := m.performance.responseTime
    errorCount := 0
    successCount := 0 }

/-- The accumulators after one more record of the group. -/
def RouteGroup.add (g : RouteGroup) (m : Metric) : RouteGroup :=
  { g with totalRequests := g.totalRequests + 1
           sumResponseTime := g.sumResponseTime + m.performance.responseTime
           maxResponseTime := max g.maxResponseTime m.performance.responseTime
           minResponseTime := min g.minResponseTime m.performance.responseTime
           errorCount := if m.error.isError then g.errorCount + 1 else g.errorCount
           successCount := if m.error.isError then g.successCount else g.successCount + 1 }

/-- An entry of the result of `getRoutePerformance`. -/
structure RouteStats where
  _id : Route
  totalRequests : Nat
  avgResponseTime : ℚ
  maxResponseTime : Int
  minResponseTime : Int
  errorCount : Nat
  successCount : Nat
  errorRate : ℚ
  successRate : ℚ
deriving DecidableEq, Repr

/-- The output of the `$group` stage for one group, with the fields of the
`$addFields` stage. -/
def RouteGroup.finish (g : RouteGroup) : RouteStats :=
  { _id := g._id
    totalRequests := g.totalRequests
    avgResponseTime := (g.sumResponseTime : ℚ) / (g.totalRequests : ℚ)
    maxResponseTime := g.maxResponseTime
    minResponseTime := g.minResponseTime
    errorCount := g.errorCount
    successCount := g.successCount
    errorRate := (g.errorCount : ℚ) / (g.totalRequests : ℚ) * 100
    successRate := (g.successCount : ℚ) / (g.totalRequests : ℚ) * 100 }

/-- The static `Metric.getRoutePerformance(projectId, timeRange)` at clock
reading `now`: `$match`, `$group` by path and method, `$addFields`, and
`$sort` by `totalRequests` descending. -/
def Metric.getRoutePerformance (store : List Metric) (projectId : String) (timeRange : ℚ)
    (now : Int) : List RouteStats :=
  let matched := store.filter (fun m => decide (m.projectId = some projectId) &&
    decide (m.timestamp ≥ startDate now timeRange))
  let groups := groupFold (fun m => m.route) RouteGroup.init RouteGroup.add matched
  (groups.entries.map (fun e => RouteGroup.finish e.2)).insertionSort
    (fun a b => a.totalRequests ≥ b.totalRequests)

/-- The handler `getRoutePerformance` for the authenticated user `userId`. -/
def getRoutePerformance (st : Server) (env : QueryEnv) (userId projectId : String)
    (range : Option ℚ) : Reply (List RouteStats) :=
  let timeRange := range.getD 24
  if !env.registryUp then Reply.serverError
  else
    match Project.findOwned st.projects projectId userId with
    | none => Reply.notFound
    | some _ =>
      if !env.metricsUp then Reply.serverError
      else Reply.ok (Metric.getRoutePerformance st.metrics projectId timeRange env.now)

/-! ## Error analysis: `getErrorAnalysis` -/

/-- An element of a group's `errors` array. -/
structure ErrorItem where
  timestamp : Int
  statusCode : Nat
  message : Option String
deriving DecidableEq, Repr

/-- An entry of `errorGroups`. -/
structure ErrorGroup where
  route : Route
  count : Nat
  errors : List ErrorItem
deriving DecidableEq, Repr

/-- The grouping key, the template `${metric.route.method} ${metric.route.path}`. -/
def errorKey (route : Route) : String :=
  route.method ++ " " ++ route.path

/-- The entry created for a new key. -/
def ErrorGroup.init (metric : Metric) : ErrorGroup :=
  { route := metric.route, count := 0, errors := [] }

/-- The element pushed for a record. -/
def ErrorItem.ofMetric (metric : Metric) : ErrorItem :=
  { timestamp := metric.timestamp
    statusCode := metric.response.statusCode
    message := metric.error.message }

/-- The update of a key's entry by one record. -/
def ErrorGroup.add (g : ErrorGroup) (metric : Metric) : ErrorGroup :=
  { g with count := g.count + 1, errors := g.errors ++ [ErrorItem.ofMetric metric] }

/-- The `data` of the error analysis response. -/
structure ErrorAnalysis where
  totalErrors : Nat
  errorGroups : List ErrorGroup
deriving DecidableEq, Repr

/-- The response data computed from the fetched error records: the groups are
`Object.values(errorGroups)` sorted by `b.count - a.count`. -/
def errorAnalysis (errorMetrics : List Metric) : ErrorAnalysis :=
  let errorGroups := groupFold (fun m => errorKey m.route) ErrorGroup.init ErrorGroup.add
    errorMetrics
  { totalErrors := errorMetrics.length
    errorGroups := (errorGroups.entries.map (fun e => e.2)).insertionSort
      (fun a b => a.count ≥ b.count) }

/-- The handler `getErrorAnalysis` for the authenticated user `userId`. -/
def getErrorAnalysis (st : Server) (env : QueryEnv) (userId projectId : String)
    (range : Option ℚ) : Reply ErrorAnalysis :=
  let timeRange := range.getD 24
  if !env.registryUp then Reply.serverError
  else
    match Project.findOwned st.projects projectId userId with
    | none => Reply.notFound
    | some _ =>
      if !env.metricsUp then Reply.serverError
      else
        Reply.ok (errorAnalysis
          (Metric.find st.metrics projectId (startDate env.now timeRange) true))

/-! ## Concrete records -/

/-- A record of the tenant with id `p`, with the error part that the recorder
derives from the status code. -/
def sampleMetric (timestamp responseTime : Int) (path method : String) (statusCode : Nat) :
    Metric :=
  { projectId := some "p"
    timestamp := timestamp
    route := { path := path, method := method }
    request := { ip := none, userAgent := none, userId := none, sessionId := none,
                 referer := none, size := 0 }
    response := { statusCode := statusCode, size := 0,
                  headers := { contentType := none, contentLength := none } }
    performance := { responseTime := responseTime }
    error := { isError := decide (statusCode ≥ 400)
               message := if statusCode ≥ 400 then some ("HTTP " ++ toString statusCode)
                          else none } }

/-- Twenty-one records, one every three minutes from 00:01:00 to 01:01:00
after the epoch. -/
def burst : List Metric :=
  (List.range 21).map (fun k => sampleMetric (60000 + k * 180000) 10 "/a" "GET" 200)

/-- One thousand and one records at 00:10:00 after the epoch. -/
def flood : List Metric :=
  List.replicate 1001 (sampleMetric 600000 10 "/a" "GET" 200)

/-- The three records of the specification's example: two requests to
`GET /a` (100 ms with status 200, 300 ms with status 500) and one to `POST /b`
(50 ms, status 200). -/
def routeSample : List Metric :=
  [sampleMetric 600000 100 "/a" "GET" 200, sampleMetric 600000 300 "/a" "GET" 500,
    sampleMetric 600000 50 "/b" "POST" 200]

/-! ## Historical trends: `getHistoricalTrends` -/

/-- The value that a `$match` stage compares with the stored `projectId`.
An aggregation pipeline is sent as written: the value is an ObjectId only
when the code builds one (`new mongoose.Types.ObjectId(projectId)`), and is
the string itself otherwise. -/
inductive MatchId where
  | objectId (hex : String)
  | string (s : String)
deriving DecidableEq, Repr

/-- Equality of a `$match` value with the `projectId` of a stored record. The
stored field is an ObjectId (the schema type of `projectId`), and a string
never equals an ObjectId. -/
def MatchId.matches (v : MatchId) (m : Metric) : Bool :=
  match v with
  | MatchId.objectId hex => decide (m.projectId = some hex)
  | MatchId.string _ => false

/-- A calendar day: the values of `$year`, `$month` and `$dayOfMonth`. -/
structure Day where
  year : Int
  month : Int
  day : Int
deriving DecidableEq, Repr

/-- The calendar day (proleptic Gregorian, UTC) of a number of days since
1 January 1970. -/
def civilFromDays (days : Int) : Day :=
  let z := days + 719468
  let era := z / 146097
  let doe := z - era * 146097
  let yoe := (doe - doe / 1460 + doe / 36524 - doe / 146096) / 365
  let doy := doe - (365 * yoe + yoe / 4 - yoe / 100)
  let mp := (5 * doy + 2) / 153
  let d := doy - (153 * mp + 2) / 5 + 1
  let m := if mp < 10 then mp + 3 else mp - 9
  { year := yoe + era * 400 + (if m ≤ 2 then 1 else 0), month := m, day := d }

/-- The group key of a record: the day components of its timestamp. -/
def dayOf (m : Metric) : Day :=
  civilFromDays (m.timestamp / (24 * 60 * 60 * 1000))

/-- The order of `$sort: { '_id.year': 1, '_id.month': 1, '_id.day': 1 }`. -/
def Day.le (a b : Day) : Prop :=
  a.year < b.year ∨ (a.year = b.year ∧ (a.month < b.month ∨ (a.month = b.month ∧ a.day ≤ b.day)))

/-- The order of days is decidable. -/
instance : DecidableRel Day.le := fun a b => by
  unfold Day.le
  exact inferInstance

/-- The state of one group of the `$group` stage of the trends pipeline. -/
structure TrendGroup where
  _id : Day
  totalRequests : Nat
  totalErrors : Nat
  sumResponseTime : Int
  maxResponseTime : Int
deriving DecidableEq, Repr

/-- The group opened by its first record. -/
def TrendGroup.init (m : Metric) : TrendGroup :=
  { _id := dayOf m
    totalRequests := 0
    totalErrors := 0
    sumResponseTime := 0
    maxResponseTime := m.performance.responseTime }

/-- The accumulators after one more record of the group. -/
def TrendGroup.add (g : TrendGroup) (m : Metric) : TrendGroup :=
  { g with totalRequests := g.totalRequests + 1
           totalErrors := if m.error.isError then g.totalErrors + 1 else g.totalErrors
           sumResponseTime := g.sumResponseTime + m.performance.responseTime
           maxResponseTime := max g.maxResponseTime m.performance.responseTime }

/-- The aggregation pipeline of the trends: `$match` on tenant and range,
`$group` by day, `$sort` by day ascending. -/
def trendsPipeline (store : List Metric) (projectId : MatchId) (start finish : Int) :
    List TrendGroup :=
  let matched := store.filter (fun m => projectId.matches m &&
    decide (m.timestamp ≥ start) && decide (m.timestamp ≤ finish))
  let groups := groupFold dayOf TrendGroup.init TrendGroup.add matched
  (groups.entries.map (fun e => e.2)).insertionSort (fun a b => Day.le a._id b._id)

/-- An entry of the `trends` array of the response; `date` is the day given
to `new Date(year, month - 1, day)`. -/
structure TrendEntry where
  date : Day
  totalRequests : Nat
  totalErrors : Nat
  errorRate : Rate
  avgResponseTime : Int
  maxResponseTime : Int
deriving DecidableEq, Repr

/-- The mapping of a pipeline result to a response entry. -/
def TrendGroup.finish (trend : TrendGroup) : TrendEntry :=
  { date := trend._id
    totalRequests := trend.totalRequests
    totalErrors := trend.totalErrors
    errorRate := if trend.totalRequests > 0
      then Rate.fixed (toFixed2 ((trend.totalErrors : ℚ) / (trend.totalRequests : ℚ) * 100))
      else Rate.number 0
    avgResponseTime := mathRound ((trend.sumResponseTime : ℚ) / (trend.totalRequests : ℚ))
    maxResponseTime := trend.maxResponseTime }

/-- The number of days of a period, the `switch` of the handler. -/
def days (period : String) : Int :=
  if period = "7d" then 7
  else if period = "30d" then 30
  else if period = "90d" then 90
  else 7

/-- The `data` of the trends response. -/
structure TrendsData where
  period : String
  metric : String
  trends : List TrendEntry
deriving DecidableEq, Repr

/-- The response data of the trends for a given `$match` value, at clock
reading `now`; `period` and `metric` are the query parameters. -/
def trendsData (store : List Metric) (projectId : MatchId) (now : Int)
    (period metric : Option String) : TrendsData :=
  let period := (orElse period (some "7d")).getD "7d"
  let metric := (orElse metric (some "requests")).getD "requests"
  let endDate := now
  let startDate := endDate - days period * 24 * 60 * 60 * 1000
  { period := period
    metric := metric
    trends := (trendsPipeline store projectId startDate endDate).map TrendGroup.finish }

/-- The handler `getHistoricalTrends` for the authenticated user `userId`: the
pipeline matches `projectId: projectId`, the string of the route parameter. -/
def getHistoricalTrends (st : Server) (env : QueryEnv) (userId projectId : String)
    (period metric : Option String) : Reply TrendsData :=
  if !env.registryUp then Reply.serverError
  else
    match Project.findOwned st.projects projectId userId with
    | none => Reply.notFound
    | some _ =>
      if !env.metricsUp then Reply.serverError
      else Reply.ok (trendsData st.metrics (MatchId.string projectId) env.now period metric)

/-- The data of a reply, when it has some. -/
def Reply.data? {α : Type} : Reply α → Option α
  | Reply.ok data => some data
  | Reply.notFound => none
  | Reply.serverError => none

/-! ## Concrete tenant with records -/

/-- A tenant with id `p`, owned by user `u1`. -/
def demo : Project :=
  { id := "p", owner := "u1", apiKey := "isk_demo", isActive := true }

/-- A server holding `demo` and the twenty-one records of `burst`. -/
def demoServer : Server :=
  { Server.start [demo] with metrics := burst }

/-- Three records of tenant `p`: two on 5 January 1970 and one on 8 January
1970 (days 2 and 5 of the week that ends at the start of 11 January). -/
def weekSample : List Metric :=
  [sampleMetric (4 * 86400000 + 3600000) 100 "/a" "GET" 200,
    sampleMetric (4 * 86400000 + 7200000) 300 "/a" "GET" 500,
    sampleMetric (7 * 86400000 + 3600000) 50 "/b" "POST" 200]

/-- A server holding `demo` and the records of `weekSample`. -/
def weekServer : Server :=
  { Server.start [demo] with metrics := weekSample }

/-- Five records of tenant `p` and one of another tenant: three failed
requests inside the day that ends at 24:01:00 after the epoch (two to
`GET /a`, one to `POST /b`), a successful one inside it, a failed one before
it, and a failed one of tenant `q` inside it. -/
def errorSample : List Metric :=
  [sampleMetric 600000 300 "/a" "GET" 500,
    sampleMetric 700000 50 "/b" "POST" 404,
    sampleMetric 800000 20 "/a" "GET" 200,
    sampleMetric 900000 310 "/a" "GET" 503,
    sampleMetric 30000 10 "/c" "GET" 500,
    { sampleMetric 650000 10 "/a" "GET" 500 with projectId := some "q" }]

/-- A server holding `demo` and the records of `errorSample`. -/
def errorServer : Server :=
  { Server.start [demo] with metrics := errorSample }

/-! ## Project deletion: `deleteProject` -/

/-- The handler `deleteProject` for the authenticated user `userId`:
`Project.findOneAndDelete` removes the caller's project from the collection,
then `Metric.deleteMany` removes the records that reference it. When the
first query throws nothing is changed; when the second throws the project is
already removed. -/
def deleteProject (st : Server) (env : QueryEnv) (userId id : String) : Server × Reply Unit :=
  if !env.registryUp then (st, Reply.serverError)
  else
    match Project.findOwned st.projects id userId with
    | none => (st, Reply.notFound)
    | some project =>
      let st := { st with projects := st.projects.erase project }
      if !env.metricsUp then (st, Reply.serverError)
      else
        ({ st with metrics := st.metrics.filter (fun m => decide (m.projectId ≠ some id)) },
          Reply.ok ())

/-! ## Live fan-out: rooms and `metric-update` events -/

/-- What reaches the server: the socket events `join-project` and
`leave-project` with their payload as a string, the `disconnect` of a socket,
and a request to the track route. -/
inductive HubEvent where
  | joinProject (socket projectId : String)
  | leaveProject (socket projectId : String)
  | disconnect (socket : String)
  | track (c : TrackCall) (env : Env)
deriving DecidableEq, Repr

/-- The server together with the rooms of its socket server: `rooms` holds the
pairs of a socket id and a room it has joined, `delivered` the packets sent,
each a socket id with the event. (The room that every socket has under its
own id is left out: no event is emitted to it.) -/
structure Hub where
  server : Server
  rooms : List (String × String)
  delivered : List (String × MetricUpdate)
deriving DecidableEq, Repr

/-- The sockets that `io.to(room)` addresses. -/
def Hub.targets (h : Hub) (room : String) : List String :=
  (h.rooms.filter (fun m => decide (m.2 = room))).map (fun m => m.1)

/-- The packets of `io.to(room).emit('metric-update', ...)` for each published
event: one per socket in the event's room. -/
def Hub.fanout (h : Hub) (published : List MetricUpdate) : List (String × MetricUpdate) :=
  published.flatMap (fun ev => (h.targets ev.room).map (fun s => (s, ev)))

/-- One step of the server of `index.js`. `join-project` runs
`socket.join('project-' + projectId)`; no listener is registered for
`leave-project`; a disconnecting socket leaves all its rooms; a track request
runs the track route, and the events it emits go to the sockets then in their
rooms. -/
def Hub.step (h : Hub) : HubEvent → Hub
  | HubEvent.joinProject socket projectId =>
      { h with rooms := if (socket, "project-" ++ projectId) ∈ h.rooms then h.rooms
                        else h.rooms ++ [(socket, "project-" ++ projectId)] }
  | HubEvent.leaveProject _ _ => h
  | HubEvent.disconnect socket =>
      { h with rooms := h.rooms.filter (fun m => decide (m.1 ≠ socket)) }
  | HubEvent.track c env =>
      let r := trackAnalytics h.server (trackReq c) env
      let published := r.1.emitted.drop h.server.emitted.length
      { h with server := r.1, delivered := h.delivered ++ h.fanout published }

/-- A sequence of steps. -/
def Hub.run (h : Hub) (events : List HubEvent) : Hub :=
  events.foldl Hub.step h

/-- A track request carrying the credential of `demo`. -/
def demoCall : TrackCall :=
  { acmeCall with xApiKey := some "isk_demo" }

/-- The server of `index.js` over the registry holding `demo`, with no socket
in any room. -/
def demoHub : Hub :=
  { server := Server.start [demo], rooms := [], delivered := [] }

/-- The hub `demoHub` after socket `s1` has joined the room of tenant `p`. -/
def subscribedHub : Hub :=
  demoHub.step (HubEvent.joinProject "s1" "p")

/-! # Properties -/

/-! ### Facts about `JSMap` -/

section MapFacts

variable {κ β : Type} [DecidableEq κ]

theorem JSMap.lookup_update_same (l : List (κ × β)) (k : κ) (v : β) :
    JSMap.lookup (JSMap.update l k v) k = some v := by
  induction l with
  | nil => simp [JSMap.update, JSMap.lookup]
  | cons e rest ih =>
    obtain ⟨k', v'⟩ := e
    by_cases h : k' = k
    · simp [JSMap.update, JSMap.lookup, h]
    · simp [JSMap.update, JSMap.lookup, h, ih]

theorem JSMap.lookup_update_other (l : List (κ × β)) (k j : κ) (v : β) (h : j ≠ k) :
    JSMap.lookup (JSMap.update l k v) j = JSMap.lookup l j := by
  induction l with
  | nil =>
    have : ¬ k = j := fun e => h e.symm
    simp [JSMap.update, JSMap.lookup, this]
  | cons e rest ih =>
    obtain ⟨k', v'⟩ := e
    by_cases hk : k' = k
    · subst hk
      have : ¬ k' = j := fun e => h e.symm
      simp [JSMap.update, JSMap.lookup, this]
    · by_cases hj : k' = j
      · subst hj
        simp [JSMap.update, JSMap.lookup, hk]
      · simp [JSMap.update, JSMap.lookup, hk, hj, ih]

theorem JSMap.get_set_same (m : JSMap κ β) (k : κ) (v : β) :
    (m.set k v).get k = some v :=
  JSMap.lookup_update_same m.entries k v

theorem JSMap.get_set_other (m : JSMap κ β) (k j : κ) (v : β) (h : j ≠ k) :
    (m.set k v).get j = m.get j :=
  JSMap.lookup_update_other m.entries k j v h

end MapFacts

/-! ### The admission controller -/

section Limiter

variable {κ : Type} [DecidableEq κ]

/-- The log read by a call: after the lazy creation of the entry, `get`
returns the stored array, or the fresh empty one. -/
theorem projectRequests_eq (requests : Requests κ) (projectId : κ) :
    ((if requests.has projectId then requests else requests.set projectId []).get
      projectId).getD [] = logOf requests projectId := by
  unfold logOf
  by_cases h : requests.has projectId = true
  · simp [h]
  · have hn : requests.get projectId = none := by
      simpa [JSMap.has, JSMap.get] using h
    simp [h, JSMap.get_set_same, hn]

/-- What a call answers, in terms of the tenant's log. -/
theorem projectRateLimit_flow (windowMs max : Int) (requests : Requests κ)
    (projectId : κ) (now : Int) :
    (projectRateLimit windowMs max requests projectId now).2 =
      if ((validRequests windowMs (logOf requests projectId) now).length : Int) ≥ max
      then Flow.respond (rateLimitExceeded windowMs) else Flow.next := by
  unfold projectRateLimit validRequests
  simp only [projectRequests_eq]
  split <;> rfl

/-- The tenant's log after a call for that tenant. -/
theorem projectRateLimit_log_same (windowMs max : Int) (requests : Requests κ)
    (projectId : κ) (now : Int) :
    (projectRateLimit windowMs max requests projectId now).1.get projectId =
      some (if ((validRequests windowMs (logOf requests projectId) now).length : Int) ≥ max
        then validRequests windowMs (logOf requests projectId) now
        else validRequests windowMs (logOf requests projectId) now ++ [now]) := by
  unfold projectRateLimit validRequests
  simp only [projectRequests_eq]
  split <;> exact JSMap.get_set_same _ _ _

/-- A call for one tenant key leaves the entry of every other key as it was. -/
theorem projectRateLimit_get_other (windowMs max : Int) (requests : Requests κ)
    (projectId other : κ) (now : Int) (h : other ≠ projectId) :
    (projectRateLimit windowMs max requests projectId now).1.get other =
      requests.get other := by
  have h0 : (if requests.has projectId then requests
      else requests.set projectId []).get other = requests.get other := by
    split
    · rfl
    · exact JSMap.get_set_other _ _ _ _ h
  unfold projectRateLimit
  simp only [projectRequests_eq]
  split
  · simp only [JSMap.get_set_other _ _ _ _ h, h0]
  · simp only [JSMap.get_set_other _ _ _ _ h, h0]

theorem projectRateLimit_logOf_same (windowMs max : Int) (requests : Requests κ)
    (projectId : κ) (now : Int) :
    logOf (projectRateLimit windowMs max requests projectId now).1 projectId =
      if ((validRequests windowMs (logOf requests projectId) now).length : Int) ≥ max
        then validRequests windowMs (logOf requests projectId) now
        else validRequests windowMs (logOf requests projectId) now ++ [now] := by
  rw [logOf, projectRateLimit_log_same]
  rfl

theorem projectRateLimit_logOf_other (windowMs max : Int) (requests : Requests κ)
    (projectId other : κ) (now : Int) (h : other ≠ projectId) :
    logOf (projectRateLimit windowMs max requests projectId now).1 other =
      logOf requests other := by
  rw [logOf, projectRateLimit_get_other _ _ _ _ _ _ h]
  rfl

/-- Claim C1. One call of the limiter for tenant key `projectId` at time `now`
keeps, in order, exactly the logged timestamps that are not `≤ now - windowMs`;
when at least `max` remain it answers 429 without calling `next` and the log
becomes the remaining timestamps; otherwise it calls `next` and the log becomes
the remaining timestamps followed by `now`. -/
theorem projectRateLimit_contract (windowMs max : Int) (requests : Requests κ)
    (projectId : κ) (now : Int) :
    let remaining := (logOf requests projectId).filter
      (fun t => decide (¬ t ≤ now - windowMs))
    let r := projectRateLimit windowMs max requests projectId now
    ((remaining.length : Int) ≥ max →
        (∃ body, r.2 = Flow.respond ⟨429, body⟩) ∧ r.2 ≠ Flow.next ∧
        r.1.get projectId = some remaining) ∧
    (¬ (remaining.length : Int) ≥ max →
        r.2 = Flow.next ∧ r.1.get projectId = some (remaining ++ [now])) := by
  intro remaining r
  have hfilter : validRequests windowMs (logOf requests projectId) now = remaining := by
    unfold validRequests
    apply List.filter_congr
    intro t _
    simp
  have hflow := projectRateLimit_flow windowMs max requests projectId now
  have hlog := projectRateLimit_log_same windowMs max requests projectId now
  rw [hfilter] at hflow hlog
  constructor
  · intro h
    rw [if_pos h] at hflow hlog
    refine ⟨⟨_, hflow⟩, ?_, hlog⟩
    rw [hflow]
    simp
  · intro h
    rw [if_neg h] at hflow hlog
    exact ⟨hflow, hlog⟩

/-- Running a sequence of calls splits at any point of the sequence. -/
theorem runCalls_append (windowMs max : Int) (calls₁ calls₂ : List (κ × Int)) :
    ∀ requests : Requests κ,
      runCalls windowMs max requests (calls₁ ++ calls₂) =
        ((runCalls windowMs max (runCalls windowMs max requests calls₁).1 calls₂).1,
          (runCalls windowMs max requests calls₁).2 ++
            (runCalls windowMs max (runCalls windowMs max requests calls₁).1 calls₂).2) := by
  induction calls₁ with
  | nil => intro requests; simp [runCalls]
  | cons c rest ih =>
    intro requests
    obtain ⟨k, now⟩ := c
    simp [runCalls, ih]

/-- A call keeps the whole log when every logged timestamp is inside its window. -/
theorem validRequests_eq_self (windowMs : Int) (log : List Int) (now : Int)
    (h : ∀ x ∈ log, now - windowMs < x) : validRequests windowMs log now = log := by
  unfold validRequests
  rw [List.filter_eq_self]
  intro x hx
  simpa using h x hx

/-- Calls for one tenant, all inside one window that ends at `hi`, are all
allowed while the log has room, and are appended to the log. -/
theorem runCalls_all_allowed (windowMs max : Int) (T : κ) (hi : Int) :
    ∀ (times : List Int) (requests : Requests κ),
      (∀ x ∈ logOf requests T, hi - windowMs < x) →
      (∀ t ∈ times, hi - windowMs < t ∧ t ≤ hi) →
      (((logOf requests T).length : Int) + times.length ≤ max) →
      (runCalls windowMs max requests (times.map (fun t => (T, t)))).2 =
          List.replicate times.length Flow.next ∧
        logOf (runCalls windowMs max requests (times.map (fun t => (T, t)))).1 T =
          logOf requests T ++ times := by
  intro times
  induction times with
  | nil => intro requests _ _ _; simp [runCalls]
  | cons t rest ih =>
    intro requests hlog htimes hlen
    have ht := htimes t (List.mem_cons_self _ _)
    have hvalid : validRequests windowMs (logOf requests T) t = logOf requests T :=
      validRequests_eq_self _ _ _ (fun x hx => by have := hlog x hx; omega)
    have hroom : ¬ (((logOf requests T).length : Int) ≥ max) := by
      simp only [List.length_cons, Nat.cast_add, Nat.cast_one] at hlen
      omega
    have hflow := projectRateLimit_flow windowMs max requests T t
    have hnew := projectRateLimit_logOf_same windowMs max requests T t
    rw [hvalid, if_neg hroom] at hflow hnew
    have hlog' : ∀ x ∈ logOf (projectRateLimit windowMs max requests T t).1 T,
        hi - windowMs < x := by
      intro x hx
      rw [hnew, List.mem_append, List.mem_singleton] at hx
      rcases hx with hx | hx
      · exact hlog x hx
      · rw [hx]; exact ht.1
    have hlen' : ((logOf (projectRateLimit windowMs max requests T t).1 T).length : Int)
        + rest.length ≤ max := by
      rw [hnew]
      simp only [List.length_cons, List.length_append, List.length_nil, Nat.cast_add,
        Nat.cast_one] at hlen ⊢
      omega
    obtain ⟨ih1, ih2⟩ := ih (projectRateLimit windowMs max requests T t).1 hlog'
      (fun u hu => htimes u (List.mem_cons_of_mem _ hu)) hlen'
    constructor
    · simp only [List.map_cons, runCalls, ih1, hflow, List.length_cons, List.replicate_succ]
    · simp only [List.map_cons, runCalls, ih2, hnew]
      simp

/-- Claim C2. From an empty log for tenant `T`, with `max ≥ 1` and
`windowMs > 0`, a non-decreasing sequence of `max + 1` call times lying within
one window (`last - first < windowMs`) has its first `max` calls allowed and
its last call rejected. -/
theorem projectRateLimit_quota (windowMs : Int) (max : Nat) (requests : Requests κ)
    (T : κ) (times : List Int) (first last : Int)
    (_hmax : 1 ≤ max) (_hw : 0 < windowMs) (hempty : logOf requests T = [])
    (hlen : times.length = max + 1) (hmono : times.Pairwise (fun a b => a ≤ b))
    (hfirst : times.head? = some first) (hlast : times.getLast? = some last)
    (hwin : last - first < windowMs) :
    (runCalls windowMs max requests (times.map (fun t => (T, t)))).2 =
      List.replicate max Flow.next ++ [Flow.respond (rateLimitExceeded windowMs)] := by
  obtain ⟨init, hinit⟩ := List.getLast?_eq_some_iff.mp hlast
  subst hinit
  have hilen : init.length = max := by simpa using hlen
  have hle_last : ∀ t ∈ init, t ≤ last := by
    intro t ht
    exact (List.pairwise_append.mp hmono).2.2 t ht last (List.mem_singleton_self _)
  have hfirst_le : ∀ t ∈ init, first ≤ t := by
    intro t ht
    cases init with
    | nil => cases ht
    | cons a rest =>
      simp only [List.cons_append, List.head?_cons, Option.some.injEq] at hfirst
      subst hfirst
      rcases List.mem_cons.mp ht with h | h
      · omega
      · have hp := (List.pairwise_append.mp hmono).1
        exact (List.pairwise_cons.mp hp).1 t h
  obtain ⟨hflows, hlog⟩ := runCalls_all_allowed windowMs max T last init requests
    (by rw [hempty]; intro x hx; cases hx)
    (fun t ht => ⟨by have := hfirst_le t ht; omega, hle_last t ht⟩)
    (by rw [hempty, hilen]; simp)
  rw [hempty, List.nil_append] at hlog
  have hvalid : validRequests windowMs init last = init :=
    validRequests_eq_self _ _ _ (fun x hx => by have := hfirst_le x hx; omega)
  have hrej := projectRateLimit_flow windowMs max
    (runCalls windowMs max requests (init.map (fun t => (T, t)))).1 T last
  rw [hlog, hvalid, if_pos (by rw [hilen])] at hrej
  rw [List.map_append, runCalls_append, hflows, hilen]
  simp only [List.map_cons, List.map_nil, runCalls, hrej]

/-- A concrete run for C2: limit 2, window 1000 ms, calls at 10, 20 and 30. -/
theorem projectRateLimit_quota_witness :
    (runCalls 1000 ((2 : Nat) : Int) (JSMap.empty : Requests Nat)
        ([10, 20, 30].map (fun t => (7, t)))).2 =
      List.replicate 2 Flow.next ++ [Flow.respond (rateLimitExceeded 1000)] :=
  projectRateLimit_quota 1000 2 JSMap.empty 7 [10, 20, 30] 10 30 (by decide) (by decide)
    (by decide) (by decide) (by decide) (by decide) (by decide) (by decide)

/-- A rejected call found the whole log inside its window and left it as it was. -/
theorem rejected_full_log (windowMs max : Int) (requests : Requests κ) (T : κ) (t : Int)
    (hlen : ((logOf requests T).length : Int) = max)
    (hrej : (projectRateLimit windowMs max requests T t).2 ≠ Flow.next) :
    logOf (projectRateLimit windowMs max requests T t).1 T = logOf requests T := by
  have hflow := projectRateLimit_flow windowMs max requests T t
  have hnew := projectRateLimit_logOf_same windowMs max requests T t
  by_cases h : ((validRequests windowMs (logOf requests T) t).length : Int) ≥ max
  · rw [if_pos h] at hnew
    rw [hnew]
    have hle := List.length_filter_le (fun time => decide (time > t - windowMs))
      (logOf requests T)
    have heq : (List.filter (fun time => decide (time > t - windowMs))
        (logOf requests T)).length = (logOf requests T).length := by
      unfold validRequests at h
      omega
    exact List.filter_eq_self.mpr (List.filter_length_eq_length.mp heq)
  · rw [if_neg h] at hflow
    exact absurd hflow hrej

/-- Claim C3. With `max ≥ 1`, when tenant `T`'s log holds exactly `max`
timestamps whose oldest is `t0` and a call at time `t` is rejected, the next
call for `T`, at a time `t' ≥ t`, is allowed if and only if
`t' - windowMs ≥ t0`. -/
theorem projectRateLimit_resume (windowMs max : Int) (requests : Requests κ) (T : κ)
    (t0 t t' : Int) (_hmax : 1 ≤ max)
    (hlen : ((logOf requests T).length : Int) = max)
    (hmem : t0 ∈ logOf requests T) (hold : ∀ x ∈ logOf requests T, t0 ≤ x)
    (hrej : (projectRateLimit windowMs max requests T t).2 ≠ Flow.next)
    (_hlater : t ≤ t') :
    (projectRateLimit windowMs max (projectRateLimit windowMs max requests T t).1 T t').2 =
      Flow.next ↔ t' - windowMs ≥ t0 := by
  have hflow := projectRateLimit_flow windowMs max
    (projectRateLimit windowMs max requests T t).1 T t'
  rw [rejected_full_log windowMs max requests T t hlen hrej] at hflow
  rw [hflow]
  have hle := List.length_filter_le (fun time => decide (time > t' - windowMs))
    (logOf requests T)
  constructor
  · intro h
    have hlt : (validRequests windowMs (logOf requests T) t').length
        < (logOf requests T).length := by
      by_contra hc
      rw [if_pos (by unfold validRequests at hc ⊢; omega)] at h
      cases h
    obtain ⟨x, hx, hpx⟩ := List.length_filter_lt_length_iff_exists.mp hlt
    have hx0 := hold x hx
    have : ¬ (x > t' - windowMs) := by simpa using hpx
    omega
  · intro h
    have hlt : (validRequests windowMs (logOf requests T) t').length
        < (logOf requests T).length :=
      List.length_filter_lt_length_iff_exists.mpr ⟨t0, hmem, by simp; omega⟩
    rw [if_neg (by omega)]

/-- A concrete run for C3: limit 2, window 1000 ms, log `[10, 20]`; the call at
500 is rejected and the next call, at 1010, is allowed. -/
theorem projectRateLimit_resume_witness :
    (projectRateLimit 1000 2 (projectRateLimit 1000 2
        (⟨[(7, [10, 20])]⟩ : Requests Nat) 7 500).1 7 1010).2 = Flow.next ↔
      (1010 : Int) - 1000 ≥ 10 :=
  projectRateLimit_resume 1000 2 ⟨[(7, [10, 20])]⟩ 7 10 500 1010 (by decide) (by decide)
    (by decide) (by decide) (by decide) (by decide)

/-- Two limiter states with the same log for tenant `A` answer every later
call for `A` alike, whatever calls for other tenants come in between. -/
theorem runCalls_agree (windowMs max : Int) (A : κ) :
    ∀ (calls : List (κ × Int)) (r₁ r₂ : Requests κ), logOf r₁ A = logOf r₂ A →
      ((calls.zip (runCalls windowMs max r₁ calls).2).filter (fun c => decide (c.1.1 = A)) =
        (calls.zip (runCalls windowMs max r₂ calls).2).filter (fun c => decide (c.1.1 = A))) ∧
      logOf (runCalls windowMs max r₁ calls).1 A =
        logOf (runCalls windowMs max r₂ calls).1 A := by
  intro calls
  induction calls with
  | nil => intro r₁ r₂ h; simpa [runCalls] using h
  | cons c rest ih =>
    intro r₁ r₂ h
    obtain ⟨k, now⟩ := c
    by_cases hk : k = A
    · subst hk
      have hf₁ := projectRateLimit_flow windowMs max r₁ k now
      have hf₂ := projectRateLimit_flow windowMs max r₂ k now
      have hl₁ := projectRateLimit_logOf_same windowMs max r₁ k now
      have hl₂ := projectRateLimit_logOf_same windowMs max r₂ k now
      rw [h] at hf₁ hl₁
      obtain ⟨ih1, ih2⟩ := ih (projectRateLimit windowMs max r₁ k now).1
        (projectRateLimit windowMs max r₂ k now).1 (hl₁.trans hl₂.symm)
      refine ⟨?_, ih2⟩
      simp only [runCalls, List.zip_cons_cons, List.filter_cons, decide_True, if_true]
      rw [ih1, hf₁, hf₂]
    · have hne : A ≠ k := fun e => hk e.symm
      obtain ⟨ih1, ih2⟩ := ih (projectRateLimit windowMs max r₁ k now).1
        (projectRateLimit windowMs max r₂ k now).1
        (by rw [projectRateLimit_logOf_other _ _ _ _ _ _ hne,
              projectRateLimit_logOf_other _ _ _ _ _ _ hne, h])
      refine ⟨?_, ih2⟩
      simp only [runCalls, List.zip_cons_cons, List.filter_cons, hk, decide_False]
      exact ih1

/-- Claim C4. For tenants `A ≠ B`, a limiter call for `B`, allowed or
rejected, leaves `A`'s logged timestamps unchanged, and every later call for
`A` (in any later sequence of calls) is decided as if the call for `B` had not
been made. -/
theorem projectRateLimit_no_interference (windowMs max : Int) (requests : Requests κ)
    (A B : κ) (now : Int) (later : List (κ × Int)) (hAB : A ≠ B) :
    (projectRateLimit windowMs max requests B now).1.get A = requests.get A ∧
    (later.zip (runCalls windowMs max
        (projectRateLimit windowMs max requests B now).1 later).2).filter
          (fun c => decide (c.1.1 = A)) =
      (later.zip (runCalls windowMs max requests later).2).filter
          (fun c => decide (c.1.1 = A)) :=
  ⟨projectRateLimit_get_other windowMs max requests B A now hAB,
    (runCalls_agree windowMs max A later _ _
      (projectRateLimit_logOf_other windowMs max requests B A now hAB)).1⟩

/-- A concrete run for C4: tenant 1 is at its limit of one request; a call for
tenant 2 changes neither its log nor the rejection of its next call. -/
theorem projectRateLimit_no_interference_witness :
    (projectRateLimit 1000 1 (⟨[(1, [10])]⟩ : Requests Nat) 2 20).1.get 1 =
      (⟨[(1, [10])]⟩ : Requests Nat).get 1 ∧
    ([((1 : Nat), (30 : Int))].zip (runCalls 1000 1
        (projectRateLimit 1000 1 (⟨[(1, [10])]⟩ : Requests Nat) 2 20).1 [(1, 30)]).2).filter
          (fun c => decide (c.1.1 = 1)) =
      ([((1 : Nat), (30 : Int))].zip (runCalls 1000 1
        (⟨[(1, [10])]⟩ : Requests Nat) [(1, 30)]).2).filter (fun c => decide (c.1.1 = 1)) :=
  projectRateLimit_no_interference 1000 1 ⟨[(1, [10])]⟩ 1 2 20 [(1, 30)] (by decide)

/-- The integer `ceilDiv a 1000` is the rational quotient `a / 1000` rounded up. -/
theorem ceilDiv_thousand (a : Int) : ceilDiv a 1000 = ⌈(a : ℚ) / 1000⌉ := by
  symm
  rw [Int.ceil_eq_iff]
  have h1 : 1000 * (ceilDiv a 1000 - 1) < a := by unfold ceilDiv; omega
  have h2 : a ≤ 1000 * ceilDiv a 1000 := by unfold ceilDiv; omega
  have h1q : (1000 : ℚ) * ((ceilDiv a 1000 : ℚ) - 1) < (a : ℚ) := by exact_mod_cast h1
  have h2q : (a : ℚ) ≤ 1000 * (ceilDiv a 1000 : ℚ) := by exact_mod_cast h2
  constructor
  · rw [lt_div_iff₀ (by norm_num)]
    linarith
  · rw [div_le_iff₀ (by norm_num)]
    linarith

/-- Claim C6. Whenever the limiter rejects, whatever the log holds and
whatever the time, the response is a 429 whose `retryAfter` is the window
duration in seconds rounded up, `⌈windowMs / 1000⌉`. -/
theorem projectRateLimit_retryAfter (windowMs max : Int) (requests : Requests κ)
    (projectId : κ) (now : Int) (res : Response)
    (hrej : (projectRateLimit windowMs max requests projectId now).2 = Flow.respond res) :
    res.status = 429 ∧ res.body.retryAfter = some ⌈(windowMs : ℚ) / 1000⌉ := by
  rw [projectRateLimit_flow] at hrej
  split at hrej
  · cases hrej
    exact ⟨rfl, by rw [← ceilDiv_thousand]; rfl⟩
  · cases hrej

/-- A concrete rejection for C6: a window of 1500 ms reports 2 seconds. -/
theorem projectRateLimit_retryAfter_witness :
    (rateLimitExceeded 1500).status = 429 ∧
      (rateLimitExceeded 1500).body.retryAfter = some ⌈((1500 : Int) : ℚ) / 1000⌉ :=
  projectRateLimit_retryAfter 1500 1 (⟨[(7, [10])]⟩ : Requests Nat) 7 20
    (rateLimitExceeded 1500) (by decide)

/-- Claim C7 fails as stated: with a window of 0 ms an allowed call at time 5
stores 5, which is not strictly greater than `5 - 0`. -/
theorem window_invariant_counterexample :
    ¬ (∀ x ∈ logOf (projectRateLimit 0 1 (JSMap.empty : Requests Nat) 7 5).1 7,
        x > 5 - 0) := by
  decide

/-- Claim C7, amended. After a limiter call for tenant `T` at time `now`, when
the window is positive (`windowMs > 0`) or the call was rejected, every
timestamp stored in `T`'s log is strictly greater than `now - windowMs`. -/
theorem window_invariant (windowMs max : Int) (requests : Requests κ) (T : κ) (now : Int)
    (h : 0 < windowMs ∨ (projectRateLimit windowMs max requests T now).2 ≠ Flow.next) :
    ∀ x ∈ logOf (projectRateLimit windowMs max requests T now).1 T,
      x > now - windowMs := by
  intro x hx
  have hkept : ∀ y ∈ validRequests windowMs (logOf requests T) now, y > now - windowMs := by
    intro y hy
    unfold validRequests at hy
    simpa using (List.mem_filter.mp hy).2
  have hflow := projectRateLimit_flow windowMs max requests T now
  rw [projectRateLimit_logOf_same] at hx
  split at hx
  · exact hkept x hx
  · rename_i hroom
    rw [if_neg hroom] at hflow
    rcases List.mem_append.mp hx with hx | hx
    · exact hkept x hx
    · rcases h with h | h
      · rw [List.mem_singleton.mp hx]
        omega
      · exact absurd hflow h

/-- A concrete call for C7: window 1000 ms, log `[10, 1500]`, call at 2000;
the entry 1500 is kept and lies inside the window. -/
theorem window_invariant_witness :
    (0 : Int) < 1000 ∧
      (1500 : Int) ∈ logOf (projectRateLimit 1000 5
        (⟨[(7, [10, 1500])]⟩ : Requests Nat) 7 2000).1 7 ∧
      (1500 : Int) > 2000 - 1000 :=
  ⟨by decide, by decide,
    window_invariant 1000 5 ⟨[(7, [10, 1500])]⟩ 7 2000 (Or.inl (by decide)) 1500 (by decide)⟩

end Limiter

/-! ### The telemetry recorder and the track route -/

/-- Claim C9. The error part of the record built by `collectAnalytics` is a
function of the response status code alone: `isError` is `status ≥ 400`, and
the message is `HTTP <status>` when `status ≥ 400` and absent (`null`)
otherwise. -/
theorem analyticsData_error (req : Req) (res : Res) (data : String)
    (responseTime timestamp : Int) :
    ((analyticsData req res data responseTime timestamp).error.isError = true ↔
        res.statusCode ≥ 400) ∧
    ((analyticsData req res data responseTime timestamp).error.message =
        if res.statusCode ≥ 400 then some ("HTTP " ++ toString res.statusCode) else none) ∧
    (∀ (req' : Req) (res' : Res) (data' : String) (responseTime' timestamp' : Int),
        res'.statusCode = res.statusCode →
        (analyticsData req' res' data' responseTime' timestamp').error =
          (analyticsData req res data responseTime timestamp).error) := by
  refine ⟨by simp [analyticsData], rfl, ?_⟩
  intro req' res' data' responseTime' timestamp' h
  simp [analyticsData, h]

/-- The authenticator, case by case: it answers with 401 or 500 and leaves
server and request as they were, or it finds the tenant, attaches it and
calls `next`. -/
theorem validateProject_cases (registryUp : Bool) (st : Server) (req : Req) :
    (∃ r, (r.status = 401 ∨ r.status = 500) ∧
      validateProject registryUp st req = (st, req, Flow.respond r)) ∨
    (∃ apiKey project, apiKeyOf req.xApiKey req.queryApiKey = some apiKey ∧
      Project.findOne st.projects st.nextRef apiKey = some project ∧
      validateProject registryUp st req =
        ({ st with nextRef := st.nextRef + 1 },
          { req with projectId := some project._id, project := some project },
          Flow.next)) := by
  unfold validateProject
  cases hk : apiKeyOf req.xApiKey req.queryApiKey with
  | none => exact Or.inl ⟨_, Or.inl rfl, rfl⟩
  | some apiKey =>
    dsimp only
    cases he : apiKey.truthy with
    | false => exact Or.inl ⟨_, Or.inl rfl, rfl⟩
    | true =>
      simp only [Bool.not_true, Bool.false_eq_true, if_false]
      cases registryUp with
      | false => exact Or.inl ⟨_, Or.inr rfl, rfl⟩
      | true =>
        cases hf : Project.findOne st.projects st.nextRef apiKey with
        | none => exact Or.inl ⟨_, Or.inl rfl, rfl⟩
        | some project => exact Or.inr ⟨apiKey, project, rfl, hf, rfl⟩

/-- The limiter answers only with 429. -/
theorem projectRateLimit_respond_status {κ : Type} [DecidableEq κ] (windowMs max : Int)
    (requests : Requests κ) (projectId : κ) (now : Int) (r : Response)
    (h : (projectRateLimit windowMs max requests projectId now).2 = Flow.respond r) :
    r.status = 429 := by
  rw [projectRateLimit_flow] at h
  split at h
  · cases h; rfl
  · cases h

/-- The track route, case by case: a rejection by the authenticator, a
rejection by the limiter, or the handler's response after `send`. -/
theorem trackAnalytics_cases (st : Server) (req : Req) (env : Env) :
    (∃ r, (r.status = 401 ∨ r.status = 500) ∧ trackAnalytics st req env = (st, r)) ∨
    (∃ r, r.status = 429 ∧
      (trackAnalytics st req env).2 = r ∧
      (trackAnalytics st req env).1.metrics = st.metrics ∧
      (trackAnalytics st req env).1.emitted = st.emitted) ∨
    (∃ (st' : Server) (req' : Req) (res : Res),
      st'.metrics = st.metrics ∧ st'.emitted = st.emitted ∧ st'.io = st.io ∧
      trackAnalytics st req env = (send env st' req' res trackedJson, tracked)) := by
  rcases validateProject_cases env.registryUp st req with
    ⟨r, hr, hv⟩ | ⟨apiKey, project, _, _, hv⟩
  · left
    refine ⟨r, hr, ?_⟩
    unfold trackAnalytics
    rw [hv]
  · right
    unfold trackAnalytics
    rw [hv]
    dsimp only
    cases hl : projectRateLimit (15 * 60 * 1000) 1000 st.requests (some project._id)
      env.now with
    | mk requests flow =>
      cases flow with
      | respond r =>
        left
        exact ⟨r, projectRateLimit_respond_status _ _ _ _ _ r (by rw [hl]), rfl, rfl, rfl⟩
      | next =>
        right
        exact ⟨{ st with requests := requests, nextRef := st.nextRef + 1 }, _, _,
          rfl, rfl, rfl, rfl⟩

/-- Claim C8 fails as stated: the request of tenant `acme` is admitted (the
handler answers 200) and its record is stored, but the clock is set back by
5 ms between the reading at the start of `collectAnalytics` and the reading at
`res.send`; the one record stored has latency -5, which is negative. -/
theorem track_latency_counterexample :
    (trackAnalytics (Server.start [acme]) (trackReq acmeCall) steppedBackEnv).2.status = 200 ∧
    steppedBackEnv.persistOk = true ∧
    (∃ record : Metric,
      (trackAnalytics (Server.start [acme]) (trackReq acmeCall) steppedBackEnv).1.metrics =
        (Server.start [acme]).metrics ++ [record] ∧
      record.performance.responseTime = -5 ∧
      ¬ record.performance.responseTime ≥ 0) := by
  refine ⟨by decide, by decide,
    analyticsData
      { trackReq acmeCall with
        projectId := some (Project.hydrate 0 acme)._id
        project := some (Project.hydrate 0 acme) }
      ⟨200, some "application/json", none⟩ trackedJson (-5) 1000, by decide, by decide, by decide⟩

/-- Claim C8, amended. For a request admitted through the track route (its
response is the handler's 200) whose record is stored successfully, exactly one
record is added to the store, and its latency is the clock reading at
`res.send` minus the clock reading at the start of `collectAnalytics`; the
latency is not negative exactly when the clock has not gone back between the
two readings. -/
theorem track_stores_one_record (st : Server) (req : Req) (env : Env)
    (hadmitted : (trackAnalytics st req env).2.status = 200)
    (hstored : env.persistOk = true) :
    ∃ record : Metric,
      (trackAnalytics st req env).1.metrics = st.metrics ++ [record] ∧
      record.performance.responseTime = env.endTime - env.startTime ∧
      (record.performance.responseTime ≥ 0 ↔ env.startTime ≤ env.endTime) := by
  rcases trackAnalytics_cases st req env with ⟨r, hr, h⟩ | ⟨r, hr, h, _⟩ | ⟨st', req', res, hm, _, _, h⟩
  · rw [h] at hadmitted
    rcases hr with hr | hr <;> · rw [hr] at hadmitted; cases hadmitted
  · rw [h, hr] at hadmitted
    cases hadmitted
  · refine ⟨analyticsData req' res trackedJson (env.endTime - env.startTime) env.timestamp,
      ?_, rfl, ?_⟩
    · rw [h]
      simp only [send, saveAnalytics, hstored, if_true]
      split <;> simp [hm]
    · show env.endTime - env.startTime ≥ 0 ↔ env.startTime ≤ env.endTime
      omega

/-- A concrete request for C8: the first request of tenant `acme`, answered in
5 ms. -/
theorem track_stores_one_record_witness :
    (trackAnalytics (Server.start [acme]) (trackReq acmeCall) quietEnv).2.status = 200 ∧
    quietEnv.persistOk = true ∧
    ∃ record : Metric,
      (trackAnalytics (Server.start [acme]) (trackReq acmeCall) quietEnv).1.metrics =
        (Server.start [acme]).metrics ++ [record] ∧
      record.performance.responseTime = quietEnv.endTime - quietEnv.startTime ∧
      (record.performance.responseTime ≥ 0 ↔ quietEnv.startTime ≤ quietEnv.endTime) :=
  ⟨by decide, by decide,
    track_stores_one_record (Server.start [acme]) (trackReq acmeCall) quietEnv
      (by decide) (by decide)⟩

/-- Claim C10. A request that the track route rejects with 401 (the
authenticator) or 429 (the admission controller) stores no metric record and
emits no fan-out event. -/
theorem track_rejected_no_record (st : Server) (req : Req) (env : Env)
    (hrejected : (trackAnalytics st req env).2.status = 401 ∨
      (trackAnalytics st req env).2.status = 429) :
    (trackAnalytics st req env).1.metrics = st.metrics ∧
      (trackAnalytics st req env).1.emitted = st.emitted := by
  rcases trackAnalytics_cases st req env with ⟨r, _, h⟩ | ⟨r, _, _, hm, he⟩ | ⟨st', req', res, _, _, _, h⟩
  · rw [h]
    exact ⟨rfl, rfl⟩
  · exact ⟨hm, he⟩
  · rw [h] at hrejected
    rcases hrejected with h' | h' <;> cases h'

/-- A key that no entry carries is not in the map. -/
theorem JSMap.lookup_eq_none {κ β : Type} [DecidableEq κ] (l : List (κ × β)) (k : κ)
    (h : ∀ e ∈ l, e.1 ≠ k) : JSMap.lookup l k = none := by
  induction l with
  | nil => rfl
  | cons e rest ih =>
    obtain ⟨k', v⟩ := e
    have hk : ¬ k' = k := h (k', v) (List.mem_cons_self _ _)
    simp only [JSMap.lookup, if_neg hk]
    exact ih (fun e he => h e (List.mem_cons_of_mem _ he))

/-- Setting a key adds no key but that one. -/
theorem JSMap.update_keys {κ β : Type} [DecidableEq κ] (l : List (κ × β)) (k : κ) (v : β) :
    ∀ e ∈ JSMap.update l k v, e.1 = k ∨ ∃ e' ∈ l, e'.1 = e.1 := by
  induction l with
  | nil =>
    intro e he
    simp only [JSMap.update, List.mem_singleton] at he
    left
    rw [he]
  | cons c rest ih =>
    obtain ⟨k', v'⟩ := c
    intro e he
    by_cases hk : k' = k
    · simp only [JSMap.update, if_pos hk, List.mem_cons] at he
      rcases he with he | he
      · left
        rw [he]
        exact hk
      · right
        exact ⟨e, List.mem_cons_of_mem _ he, rfl⟩
    · simp only [JSMap.update, if_neg hk, List.mem_cons] at he
      rcases he with he | he
      · right
        exact ⟨(k', v'), List.mem_cons_self _ _, by rw [he]⟩
      · rcases ih e he with h | ⟨e', he', h⟩
        · left; exact h
        · right; exact ⟨e', List.mem_cons_of_mem _ he', h⟩

/-- A limiter call adds no key but the one of its request. -/
theorem projectRateLimit_keys {κ : Type} [DecidableEq κ] (windowMs max : Int)
    (requests : Requests κ) (projectId : κ) (now : Int) :
    ∀ e ∈ (projectRateLimit windowMs max requests projectId now).1.entries,
      e.1 = projectId ∨ ∃ e' ∈ requests.entries, e'.1 = e.1 := by
  have h0 : ∀ e ∈ requests.entries,
      e.1 = projectId ∨ ∃ e' ∈ requests.entries, e'.1 = e.1 :=
    fun e he => Or.inr ⟨e, he, rfl⟩
  have hset : ∀ (m : Requests κ) (v : List Int),
      (∀ e ∈ m.entries, e.1 = projectId ∨ ∃ e' ∈ requests.entries, e'.1 = e.1) →
      ∀ e ∈ (m.set projectId v).entries,
        e.1 = projectId ∨ ∃ e' ∈ requests.entries, e'.1 = e.1 := by
    intro m v hm e he
    rcases JSMap.update_keys _ _ _ e he with h | ⟨e', he', h⟩
    · exact Or.inl h
    · rcases hm e' he' with h' | ⟨e'', he'', h'⟩
      · exact Or.inl (by rw [← h, h'])
      · exact Or.inr ⟨e'', he'', by rw [h', h]⟩
  unfold projectRateLimit
  dsimp only
  split <;> split <;>
    first
      | exact hset _ _ h0
      | exact hset _ _ (hset _ _ h0)
      | exact hset _ _ (hset _ _ (hset _ _ h0))

/-- In a server whose limiter keys are earlier objects, a request with the
credential of an active tenant is always admitted by the track route: the
tenant id attached to it is a new object, so the limiter finds no log for it. -/
theorem trackAnalytics_fresh_admits (st : Server) (req : Req) (env : Env) (apiKey : QueryValue)
    (p : Project) (hfresh : Fresh st) (hup : env.registryUp = true)
    (hkey : apiKeyOf req.xApiKey req.queryApiKey = some apiKey) (hne : apiKey.truthy = true)
    (hfind : st.projects.find? (fun p => apiKey.selects p.apiKey && p.isActive) = some p) :
    (trackAnalytics st req env).2 = tracked ∧ Fresh (trackAnalytics st req env).1 ∧
      (trackAnalytics st req env).1.projects = st.projects := by
  have hv : validateProject env.registryUp st req =
      ({ st with nextRef := st.nextRef + 1 },
        { req with projectId := some (Project.hydrate st.nextRef p)._id
                   project := some (Project.hydrate st.nextRef p) },
        Flow.next) := by
    unfold validateProject
    rw [hkey]
    dsimp only
    rw [hne, hup]
    simp [Project.findOne, hfind]
  have hlog : logOf st.requests (some (Project.hydrate st.nextRef p)._id) = [] := by
    unfold logOf JSMap.get
    rw [JSMap.lookup_eq_none]
    · rfl
    · intro e he hk
      have := hfresh e he _ hk
      simp [Project.hydrate] at this
  have hflow := projectRateLimit_flow (15 * 60 * 1000) 1000 st.requests
    (some (Project.hydrate st.nextRef p)._id) env.now
  rw [hlog] at hflow
  have hflow' : (projectRateLimit (15 * 60 * 1000) 1000 st.requests
      (some (Project.hydrate st.nextRef p)._id) env.now).2 = Flow.next := by
    rw [hflow]
    simp [validRequests]
  have hkeys := projectRateLimit_keys (15 * 60 * 1000) 1000 st.requests
    (some (Project.hydrate st.nextRef p)._id) env.now
  unfold trackAnalytics
  rw [hv]
  dsimp only
  cases hl : projectRateLimit (15 * 60 * 1000) 1000 st.requests
      (some (Project.hydrate st.nextRef p)._id) env.now with
  | mk requests flow =>
    rw [hl] at hflow' hkeys
    dsimp only at hflow' hkeys
    subst hflow'
    dsimp only
    refine ⟨rfl, ?_, ?_⟩
    · intro e he o ho
      have he' : e ∈ requests.entries := by
        simp only [send, saveAnalytics] at he
        split at he
        · split at he <;> exact he
        · exact he
      have hn : (send env { st with requests := requests, nextRef := st.nextRef + 1 }
          { req with projectId := some (Project.hydrate st.nextRef p)._id
                     project := some (Project.hydrate st.nextRef p) }
          { statusCode := 200, contentType := some "application/json", contentLength := none }
          trackedJson).nextRef = st.nextRef + 1 := by
        simp only [send, saveAnalytics]
        split
        · split <;> rfl
        · rfl
      rw [hn]
      rcases hkeys e he' with h | ⟨e', he'', h⟩
      · rw [h] at ho
        cases ho
        simp [Project.hydrate]
      · have := hfresh e' he'' o (by rw [h]; exact ho)
        omega
    · simp only [send, saveAnalytics]
      split
      · split <;> rfl
      · rfl

/-- From a server whose limiter keys are earlier objects, any number of
requests carrying the credential of one active tenant, at any times, are all
answered with the handler's 200. -/
theorem runTrack_fresh_admits (c : TrackCall) (apiKey : QueryValue) (p : Project)
    (hkey : apiKeyOf c.xApiKey c.queryApiKey = some apiKey) (hne : apiKey.truthy = true) :
    ∀ (calls : List (TrackCall × Env)) (st : Server), Fresh st →
      st.projects.find? (fun p => apiKey.selects p.apiKey && p.isActive) = some p →
      (∀ ce ∈ calls, ce.1 = c ∧ ce.2.registryUp = true) →
      (runTrack st calls).2 = List.replicate calls.length tracked := by
  intro calls
  induction calls with
  | nil => intro st _ _ _; rfl
  | cons ce rest ih =>
    intro st hfresh hfind hall
    obtain ⟨c', env⟩ := ce
    have hce := hall (c', env) (List.mem_cons_self _ _)
    dsimp only at hce
    obtain ⟨hc, hup⟩ := hce
    subst hc
    obtain ⟨h1, h2, h3⟩ := trackAnalytics_fresh_admits st (trackReq c') env apiKey p hfresh hup
      hkey hne hfind
    have := ih (trackAnalytics st (trackReq c') env).1 h2 (by rw [h3]; exact hfind)
      (fun ce hce => hall ce (List.mem_cons_of_mem _ hce))
    simp only [runTrack, h1, this, List.length_cons, List.replicate_succ]

/-- Claim C5, the code at the failing input: 1001 requests carrying the
credential of the active tenant `acme`, all at the same time, sent to a newly
started server. All 1001 are answered with the handler's 200; the last one is
not rejected with 429. -/
theorem track_limit_not_enforced :
    (runTrack (Server.start [acme]) (List.replicate 1001 (acmeCall, quietEnv))).2 =
      List.replicate 1001 tracked ∧
    (runTrack (Server.start [acme]) (List.replicate 1001 (acmeCall, quietEnv))).2.getLast? ≠
      some (rateLimitExceeded (15 * 60 * 1000)) := by
  have h := runTrack_fresh_admits acmeCall (QueryValue.str "isk_acme") acme (by decide)
    (by decide)
    (List.replicate 1001 (acmeCall, quietEnv)) (Server.start [acme])
    (by intro e he; cases he) (by decide)
    (by intro ce hce; rw [List.eq_of_mem_replicate hce]; exact ⟨rfl, rfl⟩)
  rw [List.length_replicate] at h
  refine ⟨h, ?_⟩
  rw [h]
  intro hlast
  have hmem := List.mem_of_getLast?_eq_some hlast
  rw [List.eq_of_mem_replicate hmem] at hlast
  have : rateLimitExceeded (15 * 60 * 1000) = tracked := List.eq_of_mem_replicate hmem
  exact absurd this (by decide)

/-- A concrete request for C10: a request without a credential gets 401. -/
theorem track_rejected_no_record_witness :
    (trackAnalytics (Server.start [acme]) (trackReq anonymousCall) quietEnv).1.metrics =
        (Server.start [acme]).metrics ∧
      (trackAnalytics (Server.start [acme]) (trackReq anonymousCall) quietEnv).1.emitted =
        (Server.start [acme]).emitted :=
  track_rejected_no_record (Server.start [acme]) (trackReq anonymousCall) quietEnv
    (Or.inl (by decide))

/-! ### Grouping loops -/

section Grouping

variable {α κ β : Type} [DecidableEq κ]

/-- The keys after `set`: unchanged for a key that is there, the key appended
otherwise. -/
theorem JSMap.update_map_fst (l : List (κ × β)) (k : κ) (v : β) :
    (JSMap.update l k v).map Prod.fst =
      if k ∈ l.map Prod.fst then l.map Prod.fst else l.map Prod.fst ++ [k] := by
  induction l with
  | nil => simp [JSMap.update]
  | cons e rest ih =>
    obtain ⟨k', v'⟩ := e
    by_cases hk : k' = k
    · subst hk
      simp [JSMap.update]
    · have hk' : ¬ k = k' := fun h => hk h.symm
      simp only [JSMap.update, if_neg hk, List.map_cons, ih, List.mem_cons, hk', false_or]
      split <;> simp

/-- Setting a key keeps the keys free of repetition. -/
theorem JSMap.update_nodup (l : List (κ × β)) (k : κ) (v : β)
    (h : (l.map Prod.fst).Nodup) : ((JSMap.update l k v).map Prod.fst).Nodup := by
  rw [JSMap.update_map_fst]
  split
  · exact h
  · rename_i hk
    exact List.Nodup.append h (List.nodup_singleton k) (by simpa using hk)

/-- A key has a value exactly when it is among the keys. -/
theorem JSMap.lookup_eq_none_iff (l : List (κ × β)) (k : κ) :
    JSMap.lookup l k = none ↔ k ∉ l.map Prod.fst := by
  induction l with
  | nil => simp [JSMap.lookup]
  | cons e rest ih =>
    obtain ⟨k', v'⟩ := e
    by_cases hk : k' = k
    · subst hk
      simp [JSMap.lookup]
    · have hk' : ¬ k = k' := fun h => hk h.symm
      simp [JSMap.lookup, hk, hk', ih]

/-- With keys free of repetition, every entry is what `get` returns for its key. -/
theorem JSMap.lookup_of_mem (l : List (κ × β)) (h : (l.map Prod.fst).Nodup)
    (e : κ × β) (he : e ∈ l) : JSMap.lookup l e.1 = some e.2 := by
  induction l with
  | nil => cases he
  | cons c rest ih =>
    obtain ⟨k', v'⟩ := c
    rw [List.map_cons, List.nodup_cons] at h
    rcases List.mem_cons.mp he with he | he
    · subst he
      simp [JSMap.lookup]
    · have hne : ¬ k' = e.1 := by
        intro hk
        have hmem := List.mem_map_of_mem Prod.fst he
        rw [← hk] at hmem
        exact h.1 hmem
      simp only [JSMap.lookup, if_neg hne]
      exact ih h.2 he

/-- The value of a key after a grouping loop started from any dictionary: the
members of the key's group folded into the value found, or into the initial
value of the group's first member. -/
theorem groupStep_foldl_get (key : α → κ) (init : α → β) (step : β → α → β) (l : List α) :
    ∀ (acc : JSMap κ β) (k : κ),
      (l.foldl (groupStep key init step) acc).get k =
        match l.filter (fun x => decide (key x = k)) with
        | [] => acc.get k
        | x :: xs => some ((x :: xs).foldl step ((acc.get k).getD (init x))) := by
  induction l with
  | nil => intro acc k; rfl
  | cons y ys ih =>
    intro acc k
    rw [List.foldl_cons, ih]
    by_cases hk : key y = k
    · have hget : (groupStep key init step acc y).get k =
          some (step ((acc.get k).getD (init y)) y) := by
        unfold groupStep
        rw [hk]
        exact JSMap.get_set_same _ _ _
      rw [List.filter_cons, if_pos (by simpa using hk), hget]
      generalize List.filter (fun x => decide (key x = k)) ys = G
      cases G <;> rfl
    · have hget : (groupStep key init step acc y).get k = acc.get k := by
        unfold groupStep
        exact JSMap.get_set_other _ _ _ _ (fun h => hk h.symm)
      rw [List.filter_cons, if_neg (by simpa using hk), hget]

/-- A grouping loop keeps the keys free of repetition. -/
theorem groupStep_foldl_nodup (key : α → κ) (init : α → β) (step : β → α → β) (l : List α) :
    ∀ acc : JSMap κ β, (acc.entries.map Prod.fst).Nodup →
      ((l.foldl (groupStep key init step) acc).entries.map Prod.fst).Nodup := by
  induction l with
  | nil => intro acc h; exact h
  | cons y ys ih =>
    intro acc h
    rw [List.foldl_cons]
    exact ih _ (JSMap.update_nodup _ _ _ h)

/-- The keys of a grouping loop are free of repetition. -/
theorem groupFold_nodup (key : α → κ) (init : α → β) (step : β → α → β) (l : List α) :
    ((groupFold key init step l).entries.map Prod.fst).Nodup :=
  groupStep_foldl_nodup key init step l JSMap.empty List.nodup_nil

/-- The value a grouping loop holds for a key. -/
theorem groupFold_get (key : α → κ) (init : α → β) (step : β → α → β) (l : List α) (k : κ) :
    (groupFold key init step l).get k =
      match l.filter (fun x => decide (key x = k)) with
      | [] => none
      | x :: xs => some ((x :: xs).foldl step (init x)) := by
  unfold groupFold
  rw [groupStep_foldl_get]
  rfl

/-- The keys of a grouping loop are the keys of the records. -/
theorem groupFold_mem_keys (key : α → κ) (init : α → β) (step : β → α → β) (l : List α)
    (k : κ) :
    k ∈ (groupFold key init step l).entries.map Prod.fst ↔ ∃ x ∈ l, key x = k := by
  have hget := groupFold_get key init step l k
  have hnone := JSMap.lookup_eq_none_iff (groupFold key init step l).entries k
  constructor
  · intro hmem
    by_contra hno
    have hnil : l.filter (fun x => decide (key x = k)) = [] := by
      rw [List.filter_eq_nil_iff]
      intro a ha hka
      exact hno ⟨a, ha, by simpa using hka⟩
    rw [hnil] at hget
    exact (hnone.mp hget) hmem
  · rintro ⟨x, hx, hkx⟩
    by_contra hmem
    have hn : (groupFold key init step l).get k = none := hnone.mpr hmem
    rw [hn] at hget
    have hx' : x ∈ l.filter (fun x => decide (key x = k)) :=
      List.mem_filter.mpr ⟨hx, by simpa using hkx⟩
    cases hf : l.filter (fun x => decide (key x = k)) with
    | nil => rw [hf] at hx'; cases hx'
    | cons a as => rw [hf] at hget; cases hget

/-- Every entry of a grouping loop holds the fold of its key's group, which is
not empty. -/
theorem groupFold_entry (key : α → κ) (init : α → β) (step : β → α → β) (l : List α)
    (e : κ × β) (he : e ∈ (groupFold key init step l).entries) :
    ∃ x xs, l.filter (fun y => decide (key y = e.1)) = x :: xs ∧
      e.2 = (x :: xs).foldl step (init x) := by
  have hlook : (groupFold key init step l).get e.1 = some e.2 :=
    JSMap.lookup_of_mem _ (groupFold_nodup key init step l) e he
  rw [groupFold_get] at hlook
  cases hf : l.filter (fun y => decide (key y = e.1)) with
  | nil => rw [hf] at hlook; cases hlook
  | cons x xs =>
    rw [hf] at hlook
    exact ⟨x, xs, rfl, (Option.some.inj hlook).symm⟩

end Grouping

/-! ### The live rolling window -/

/-- The bucket width is at least one minute. -/
theorem interval_pos (timeRange : ℚ) : 0 < interval timeRange := by
  unfold interval
  have := le_max_left (1 : Int) ⌊timeRange * 60 / 20⌋
  omega

/-- A record belongs to the bucket that starts at `b` exactly when `b` is a
multiple of the width and the timestamp lies in `[b, b + width)`. -/
theorem timeKey_eq_iff (iv : Int) (hiv : 0 < iv) (m : Metric) (b : Int) :
    timeKey iv m = b ↔
      (iv * 60 * 1000 ∣ b ∧ b ≤ m.timestamp ∧ m.timestamp < b + iv * 60 * 1000) := by
  unfold timeKey
  have hw : 0 < iv * 60 * 1000 := by omega
  generalize iv * 60 * 1000 = w at hw
  constructor
  · intro h
    subst h
    refine ⟨Dvd.intro_left _ rfl, Int.ediv_mul_le _ (by omega), ?_⟩
    have := Int.lt_ediv_add_one_mul_self m.timestamp hw
    linarith
  · rintro ⟨⟨q, hq⟩, hle, hlt⟩
    subst hq
    have hdiv : m.timestamp / w = q ∧ m.timestamp % w = m.timestamp - w * q :=
      (Int.ediv_emod_unique hw).mpr ⟨by ring, by linarith, by linarith⟩
    rw [hdiv.1, mul_comm]

/-- The entry of a bucket after the records of a group have been added. -/
theorem timeInterval_foldl_add (G : List Metric) :
    ∀ i : TimeInterval, G.foldl TimeInterval.add i =
      { requests := i.requests + G.length
        errors := i.errors + (G.filter (fun m => m.error.isError)).length
        avgResponseTime := i.avgResponseTime
        responseTimes := i.responseTimes ++ G.map (fun m => m.performance.responseTime) } := by
  induction G with
  | nil => intro i; simp
  | cons m rest ih =>
    intro i
    rw [List.foldl_cons, ih]
    cases he : m.error.isError <;>
      simp [TimeInterval.add, he, List.filter_cons, Nat.add_assoc, Nat.add_comm 1]

/-- The times of the series are the keys of `timeIntervals`, rearranged. -/
theorem timeSeries_times_perm (iv : Int) (metrics : List Metric) :
    ((timeSeries iv metrics).map (fun e => e.time)).Perm
      ((timeIntervals iv metrics).entries.map Prod.fst) := by
  unfold timeSeries
  have h := (List.perm_insertionSort (fun a b : SeriesEntry => a.time ≤ b.time)
    ((timeIntervals iv metrics).entries.map (fun e => TimeInterval.finish e.1 e.2))).map
    (fun e => e.time)
  rw [List.map_map] at h
  exact h

/-- The series is in ascending order of time, without repeated times. -/
theorem timeSeries_ascending (iv : Int) (metrics : List Metric) :
    ((timeSeries iv metrics).map (fun e => e.time)).Pairwise (fun a b => a < b) := by
  have hnodup : ((timeSeries iv metrics).map (fun e => e.time)).Nodup :=
    (timeSeries_times_perm iv metrics).nodup_iff.mpr
      (groupFold_nodup (timeKey iv) (fun _ => TimeInterval.init) TimeInterval.add metrics)
  haveI : IsTotal SeriesEntry (fun a b => a.time ≤ b.time) := ⟨fun a b => le_total a.time b.time⟩
  haveI : IsTrans SeriesEntry (fun a b => a.time ≤ b.time) :=
    ⟨fun a b c hab hbc => le_trans hab hbc⟩
  have hsorted : ((timeSeries iv metrics).map (fun e => e.time)).Pairwise (fun a b => a ≤ b) := by
    rw [List.pairwise_map]
    exact List.sorted_insertionSort (fun a b : SeriesEntry => a.time ≤ b.time) _
  exact (hsorted.and hnodup).imp (fun h => lt_of_le_of_ne h.1 h.2)

/-- Every entry of the series is the finished entry of a bucket's group. -/
theorem timeSeries_entry (iv : Int) (metrics : List Metric) (e : SeriesEntry)
    (he : e ∈ timeSeries iv metrics) :
    ∃ x xs, metrics.filter (fun m => decide (timeKey iv m = e.time)) = x :: xs ∧
      e = TimeInterval.finish e.time ((x :: xs).foldl TimeInterval.add TimeInterval.init) := by
  unfold timeSeries at he
  have he' := (List.perm_insertionSort (fun a b : SeriesEntry => a.time ≤ b.time) _).mem_iff.mp he
  obtain ⟨kv, hkv, hfin⟩ := List.mem_map.mp he'
  obtain ⟨x, xs, hfilter, hfold⟩ := groupFold_entry (timeKey iv)
    (fun _ => TimeInterval.init) TimeInterval.add metrics kv hkv
  have htime : e.time = kv.1 := by rw [← hfin]; rfl
  refine ⟨x, xs, by rw [htime]; exact hfilter, ?_⟩
  rw [htime, ← hfold]
  exact hfin.symm

/-- Claim C14. The time series of the live rolling window has exactly one
entry per bucket that holds a fetched record, in ascending order of bucket
start; the entry of the bucket `[b, b + w)` reports the number of fetched
records in it, the number of those with the error flag, the error rate
`errors / requests * 100` and the mean latency of those records (in exact
arithmetic). -/
theorem timeSeries_buckets (timeRange : ℚ) (metrics : List Metric) :
    ((timeSeries (interval timeRange) metrics).map (fun e => e.time)).Pairwise
      (fun a b => a < b) ∧
    (∀ b : Int, b ∈ (timeSeries (interval timeRange) metrics).map (fun e => e.time) ↔
      (interval timeRange * 60 * 1000 ∣ b ∧
        ∃ m ∈ metrics, b ≤ m.timestamp ∧ m.timestamp < b + interval timeRange * 60 * 1000)) ∧
    (∀ e ∈ timeSeries (interval timeRange) metrics,
      e.requests = (metrics.filter (fun m => decide (e.time ≤ m.timestamp ∧
          m.timestamp < e.time + interval timeRange * 60 * 1000))).length ∧
      e.errors = ((metrics.filter (fun m => decide (e.time ≤ m.timestamp ∧
          m.timestamp < e.time + interval timeRange * 60 * 1000))).filter
            (fun m => m.error.isError)).length ∧
      e.errorRate = (e.errors : ℚ) / (e.requests : ℚ) * 100 ∧
      e.avgResponseTime =
        (((metrics.filter (fun m => decide (e.time ≤ m.timestamp ∧
          m.timestamp < e.time + interval timeRange * 60 * 1000))).map
            (fun m => m.performance.responseTime)).sum : ℚ) / (e.requests : ℚ)) := by
  have hiv := interval_pos timeRange
  generalize interval timeRange = iv at hiv
  refine ⟨timeSeries_ascending iv metrics, ?_, ?_⟩
  · intro b
    rw [(timeSeries_times_perm iv metrics).mem_iff]
    unfold timeIntervals
    rw [groupFold_mem_keys]
    constructor
    · rintro ⟨m, hm, hk⟩
      have h := (timeKey_eq_iff iv hiv m b).mp hk
      exact ⟨h.1, m, hm, h.2⟩
    · rintro ⟨hdvd, m, hm, h⟩
      exact ⟨m, hm, (timeKey_eq_iff iv hiv m b).mpr ⟨hdvd, h⟩⟩
  · intro e he
    obtain ⟨x, xs, hfilter, hfin⟩ := timeSeries_entry iv metrics e he
    have hx : x ∈ metrics.filter (fun m => decide (timeKey iv m = e.time)) := by
      rw [hfilter]
      exact List.mem_cons_self _ _
    have hdvd : iv * 60 * 1000 ∣ e.time :=
      ((timeKey_eq_iff iv hiv x e.time).mp (by simpa using (List.mem_filter.mp hx).2)).1
    have hbucket : metrics.filter (fun m => decide (e.time ≤ m.timestamp ∧
        m.timestamp < e.time + iv * 60 * 1000)) = x :: xs := by
      rw [← hfilter]
      apply List.filter_congr
      intro m _
      have h := timeKey_eq_iff iv hiv m e.time
      by_cases hk : timeKey iv m = e.time
      · have := (h.mp hk).2
        simp [hk, this]
      · have : ¬ (e.time ≤ m.timestamp ∧ m.timestamp < e.time + iv * 60 * 1000) :=
          fun hc => hk (h.mpr ⟨hdvd, hc⟩)
        simp only [hk, decide_False, decide_eq_false_iff_not]
        exact this
    rw [hbucket]
    rw [timeInterval_foldl_add] at hfin
    have hreq : e.requests = (x :: xs).length := by
      rw [hfin]
      simp [TimeInterval.finish, TimeInterval.init]
    have herr : e.errors = ((x :: xs).filter (fun m => m.error.isError)).length := by
      rw [hfin]
      simp [TimeInterval.finish, TimeInterval.init]
    refine ⟨hreq, herr, ?_, ?_⟩
    · rw [hfin]
      rfl
    · rw [hreq]
      rw [hfin]
      simp [TimeInterval.finish, TimeInterval.init, Function.comp_def]

/-- The records of a tenant inside the lookback window, in store order. -/
theorem Metric.find_perm (store : List Metric) (projectId : String) (start : Int) :
    (Metric.find store projectId start false).Perm
      (store.filter (fun m => decide (m.projectId = some projectId ∧ m.timestamp ≥ start))) := by
  unfold Metric.find
  have hfilter : store.filter (fun m => decide (m.projectId = some projectId) &&
      decide (m.timestamp ≥ start) && (!false || m.error.isError)) =
      store.filter (fun m => decide (m.projectId = some projectId ∧ m.timestamp ≥ start)) := by
    apply List.filter_congr
    intro m _
    simp
  rw [hfilter]
  exact List.perm_insertionSort _ _

/-- The live window fetches all records of the window, up to 1000. -/
theorem realtimeFetch_length (store : List Metric) (projectId : String) (now : Int)
    (timeRange : ℚ) :
    (realtimeFetch store projectId now timeRange).length =
      min 1000 (store.filter (fun m => decide (m.projectId = some projectId ∧
        m.timestamp ≥ startDate now timeRange))).length := by
  unfold realtimeFetch
  rw [List.length_take, (Metric.find_perm store projectId _).length_eq]

/-- Claim C15 fails as stated: with 1001 records of the tenant inside the
lookback window, the summary reports 1000 total requests. -/
theorem summary_total_counterexample :
    (summary (realtimeFetch flood "p" 3660000 1)).totalRequests ≠
      (flood.filter (fun m => decide (m.projectId = some "p" ∧
        m.timestamp ≥ startDate 3660000 1))).length := by
  have hstart : startDate 3660000 1 = 60000 := by norm_num [startDate, timeClip]
  have hall : flood.filter (fun m => decide (m.projectId = some "p" ∧
      m.timestamp ≥ startDate 3660000 1)) = flood := by
    rw [List.filter_eq_self, hstart]
    intro m hm
    rw [List.eq_of_mem_replicate hm]
    decide
  have hlen : (summary (realtimeFetch flood "p" 3660000 1)).totalRequests =
      (realtimeFetch flood "p" 3660000 1).length := rfl
  have hflood : flood.length = 1001 := List.length_replicate _ _
  rw [hlen, realtimeFetch_length, hall, hflood]
  decide

/-- Claim C15, amended. The summary's total is the number of the tenant's
records inside the lookback window, capped at 1000, and its error count is the
number of fetched records with the error flag; when the window holds at most
1000 records, the fetched records are all of them, so both counts are over
all records of the window. -/
theorem summary_counts (store : List Metric) (projectId : String) (now : Int)
    (timeRange : ℚ) :
    (summary (realtimeFetch store projectId now timeRange)).totalRequests =
      min 1000 (store.filter (fun m => decide (m.projectId = some projectId ∧
        m.timestamp ≥ startDate now timeRange))).length ∧
    (summary (realtimeFetch store projectId now timeRange)).errorCount =
      ((realtimeFetch store projectId now timeRange).filter
        (fun m => m.error.isError)).length ∧
    ((store.filter (fun m => decide (m.projectId = some projectId ∧
        m.timestamp ≥ startDate now timeRange))).length ≤ 1000 →
      (summary (realtimeFetch store projectId now timeRange)).totalRequests =
        (store.filter (fun m => decide (m.projectId = some projectId ∧
          m.timestamp ≥ startDate now timeRange))).length ∧
      (summary (realtimeFetch store projectId now timeRange)).errorCount =
        ((store.filter (fun m => decide (m.projectId = some projectId ∧
          m.timestamp ≥ startDate now timeRange))).filter
            (fun m => m.error.isError)).length) := by
  have hperm := Metric.find_perm store projectId (startDate now timeRange)
  have hlen := realtimeFetch_length store projectId now timeRange
  refine ⟨hlen, rfl, ?_⟩
  intro hsmall
  have hall : realtimeFetch store projectId now timeRange =
      Metric.find store projectId (startDate now timeRange) false := by
    unfold realtimeFetch
    apply List.take_of_length_le
    rw [hperm.length_eq]
    exact hsmall
  constructor
  · show (realtimeFetch store projectId now timeRange).length = _
    rw [hlen]
    omega
  · show ((realtimeFetch store projectId now timeRange).filter
        (fun m => m.error.isError)).length = _
    rw [hall]
    exact (hperm.filter _).length_eq

/-- Claim C16 fails as stated: for a lookback of two and a half hours (150
minutes) the bucket width is 7 minutes, not `max(1, 150 / 20) = 7.5`. -/
theorem interval_counterexample :
    ((interval (5 / 2) : Int) : ℚ) ≠ max 1 ((5 / 2 : ℚ) * 60 / 20) := by
  norm_num [interval]

/-- Claim C16, amended. The bucket width in minutes is
`max(1, lookbackMinutes / 20)` rounded down to a whole number: it is the
greatest integer not above `max(1, lookbackMinutes / 20)`, and equals it
whenever `lookbackMinutes / 20` is a whole number. -/
theorem interval_floor (timeRange : ℚ) :
    interval timeRange = ⌊max 1 (timeRange * 60 / 20)⌋ ∧
    ((interval timeRange : Int) : ℚ) ≤ max 1 (timeRange * 60 / 20) ∧
    max 1 (timeRange * 60 / 20) < ((interval timeRange : Int) : ℚ) + 1 ∧
    (∀ n : Int, timeRange * 60 / 20 = (n : ℚ) →
      ((interval timeRange : Int) : ℚ) = max 1 (timeRange * 60 / 20)) := by
  have hfloor : interval timeRange = ⌊max 1 (timeRange * 60 / 20)⌋ := by
    unfold interval
    rw [Monotone.map_max (Int.floor_mono (α := ℚ))]
    simp
  refine ⟨hfloor, ?_, ?_, ?_⟩
  · rw [hfloor]
    exact Int.floor_le _
  · rw [hfloor]
    exact Int.lt_floor_add_one _
  · intro n hn
    unfold interval
    rw [hn, Int.floor_intCast]
    push_cast
    rfl

/-- Claim C17, the code at the failing input: a lookback of one hour at
01:01:00 after the epoch, with 21 records of the tenant inside the window
`[00:01:00, 01:01:00]`, one every three minutes. The bucket width is 3
minutes and the series has 21 entries. -/
theorem timeSeries_over_twenty :
    (∀ m ∈ burst, startDate 3660000 1 ≤ m.timestamp ∧ m.timestamp ≤ 3660000) ∧
      (timeSeries (interval 1) (realtimeFetch burst "p" 3660000 1)).length = 21 := by
  have hstart : startDate 3660000 1 = 60000 := by norm_num [startDate, timeClip]
  have hiv : interval 1 = 3 := by norm_num [interval]
  unfold realtimeFetch
  rw [hstart, hiv]
  decide

/-- The function `Math.round` at 0. -/
theorem mathRound_zero : mathRound 0 = 0 := by
  norm_num [mathRound]

/-- Claim C18. When the calling user owns the tenant, both stores answer and
the tenant has no record in the lookback window, the live rolling window
returns an empty time series and the summary `totalRequests 0`,
`errorCount 0`, `errorRate 0`, `avgResponseTime 0`. -/
theorem getRealtimeMetrics_empty (st : Server) (env : QueryEnv) (userId projectId : String)
    (range : Option ℚ) (p : Project)
    (hregistry : env.registryUp = true) (hmetrics : env.metricsUp = true)
    (howner : Project.findOwned st.projects projectId userId = some p)
    (hnone : ∀ m ∈ st.metrics, m.projectId = some projectId →
      m.timestamp < startDate env.now (range.getD 1)) :
    getRealtimeMetrics st env userId projectId range =
      Reply.ok { summary := { totalRequests := 0, errorCount := 0,
                              errorRate := Rate.number 0, avgResponseTime := 0 }
                 timeSeries := [] } := by
  have hfetch : realtimeFetch st.metrics projectId env.now (range.getD 1) = [] := by
    have hperm := Metric.find_perm st.metrics projectId (startDate env.now (range.getD 1))
    have hnil : st.metrics.filter (fun m => decide (m.projectId = some projectId ∧
        m.timestamp ≥ startDate env.now (range.getD 1))) = [] := by
      rw [List.filter_eq_nil_iff]
      intro m hm hc
      simp only [decide_eq_true_eq] at hc
      have := hnone m hm hc.1
      omega
    rw [hnil] at hperm
    unfold realtimeFetch
    rw [hperm.eq_nil]
    rfl
  unfold getRealtimeMetrics
  rw [hregistry, howner, hmetrics]
  simp only [Bool.not_true, Bool.false_eq_true, if_false, hfetch]
  have hsum : summary [] = (⟨0, 0, Rate.number 0, 0⟩ : Summary) := by
    simp [summary, mathRound_zero]
  rw [hsum]
  rfl

/-- A concrete query for C18: the owner of `acme` asks for the live window of
a server that has stored no record. -/
theorem getRealtimeMetrics_empty_witness :
    getRealtimeMetrics (Server.start [acme]) ⟨3660000, true, true⟩ "u1"
        "65f0c0ffee0123456789abcd" none =
      Reply.ok { summary := { totalRequests := 0, errorCount := 0,
                              errorRate := Rate.number 0, avgResponseTime := 0 }
                 timeSeries := [] } :=
  getRealtimeMetrics_empty (Server.start [acme]) _ "u1" "65f0c0ffee0123456789abcd" none acme
    rfl rfl (by decide) (by intro m hm; cases hm)

/-! ### Containment of persistence failures, and the authenticator -/

/-- The response of the track route depends on the environment only through
the registry lookup and the limiter's clock reading. -/
theorem trackAnalytics_response_indep (st : Server) (req : Req) (env env' : Env)
    (hregistry : env.registryUp = env'.registryUp) (hnow : env.now = env'.now) :
    (trackAnalytics st req env).2 = (trackAnalytics st req env').2 := by
  unfold trackAnalytics
  rw [hregistry, hnow]
  rcases validateProject env'.registryUp st req with ⟨st₁, req₁, flow⟩
  cases flow with
  | respond r => rfl
  | next =>
    dsimp only
    rcases projectRateLimit (15 * 60 * 1000) 1000 st₁.requests req₁.projectId env'.now with
      ⟨requests, flow₂⟩
    cases flow₂ <;> rfl

/-- The recorder with a failing `Metric.create` leaves the server as it was. -/
theorem send_failed (env : Env) (st : Server) (req : Req) (res : Res) (data : String)
    (h : env.persistOk = false) : send env st req res data = st := by
  simp [send, saveAnalytics, h]

/-- An event emitted by the recorder comes with a stored record. -/
theorem send_emitted (env : Env) (st : Server) (req : Req) (res : Res) (data : String)
    (h : (send env st req res data).emitted ≠ st.emitted) :
    env.persistOk = true ∧
      (send env st req res data).metrics = st.metrics ++
        [analyticsData req res data (env.endTime - env.startTime) env.timestamp] := by
  cases hp : env.persistOk with
  | false => rw [send_failed env st req res data hp] at h; exact absurd rfl h
  | true =>
    refine ⟨rfl, ?_⟩
    simp only [send, saveAnalytics, hp, if_true]
    split <;> rfl

/-- Claim C11. Persistence failures stay inside the recorder. For every
exchange on the track route: when storing the record fails, the response is
the one delivered when storing succeeds, the recorder leaves the server as it
was (no record, no event, no error), and in every case an event is emitted
only together with a stored record. -/
theorem persistence_failure_contained (st : Server) (req : Req) (env : Env) :
    (trackAnalytics st req { env with persistOk := false }).2 =
      (trackAnalytics st req { env with persistOk := true }).2 ∧
    (trackAnalytics st req { env with persistOk := false }).1.emitted = st.emitted ∧
    (trackAnalytics st req { env with persistOk := false }).1.metrics = st.metrics ∧
    (∀ (res : Res) (data : String),
      send { env with persistOk := false } st req res data = st) ∧
    ((trackAnalytics st req env).1.emitted ≠ st.emitted →
      env.persistOk = true ∧
        ∃ record, (trackAnalytics st req env).1.metrics = st.metrics ++ [record]) := by
  refine ⟨trackAnalytics_response_indep st req _ _ rfl rfl, ?_, ?_,
    fun res data => send_failed _ st req res data rfl, ?_⟩
  · rcases trackAnalytics_cases st req { env with persistOk := false } with
      ⟨r, _, h⟩ | ⟨r, _, _, _, he⟩ | ⟨st', req', res, _, he, _, h⟩
    · rw [h]
    · exact he
    · rw [h, send_failed _ st' req' res trackedJson rfl]
      exact he
  · rcases trackAnalytics_cases st req { env with persistOk := false } with
      ⟨r, _, h⟩ | ⟨r, _, _, hm, _⟩ | ⟨st', req', res, hm, _, _, h⟩
    · rw [h]
    · exact hm
    · rw [h, send_failed _ st' req' res trackedJson rfl]
      exact hm
  · intro hemit
    rcases trackAnalytics_cases st req env with
      ⟨r, _, h⟩ | ⟨r, _, _, _, he⟩ | ⟨st', req', res, hm, he, _, h⟩
    · rw [h] at hemit
      exact absurd rfl hemit
    · exact absurd he hemit
    · rw [h] at hemit ⊢
      have := send_emitted env st' req' res trackedJson (by rw [he]; exact hemit)
      exact ⟨this.1, _, by rw [this.2, hm]⟩

/-- The credential that the authenticator reads is a given non-empty string
exactly when the header is that string, or the header is absent or empty and
the query parameter is that string. -/
theorem apiKeyOf_eq_str_iff (a : Option String) (b : Option QueryValue) (key : String) :
    (apiKeyOf a b = some (QueryValue.str key) ∧ key ≠ "") ↔
      (key ≠ "" ∧ (a = some key ∨
        ((a = none ∨ a = some "") ∧ b = some (QueryValue.str key)))) := by
  unfold apiKeyOf
  cases a with
  | none => simp; tauto
  | some s =>
    by_cases hs : s = ""
    · subst hs
      simp only [if_true]
      constructor
      · rintro ⟨h1, h2⟩
        exact ⟨h2, Or.inr ⟨by simp, h1⟩⟩
      · rintro ⟨h2, h | ⟨_, h⟩⟩
        · exact absurd (Option.some.inj h).symm h2
        · exact ⟨h, h2⟩
    · simp only [if_neg hs]
      constructor
      · rintro ⟨h1, h2⟩
        have h3 : s = key := by
          have := Option.some.inj h1
          exact QueryValue.str.inj this
        exact ⟨h2, Or.inl (by rw [h3])⟩
      · rintro ⟨h2, h | ⟨h | h, _⟩⟩
        · have h3 : s = key := Option.some.inj h
          exact ⟨by rw [h3], h2⟩
        · cases h
        · exact absurd (Option.some.inj h) hs

/-- The credential that the authenticator reads is the operator object exactly
when the header is absent or empty and the query parameter is that object. -/
theorem apiKeyOf_eq_ne_iff (a : Option String) (b : Option QueryValue) (s : String) :
    apiKeyOf a b = some (QueryValue.ne s) ↔
      ((a = none ∨ a = some "") ∧ b = some (QueryValue.ne s)) := by
  unfold apiKeyOf
  cases a with
  | none => simp
  | some h =>
    by_cases hs : h = ""
    · subst hs
      simp
    · simp [hs]

/-- When the registry answers, the authenticator calls `next` exactly for a
truthy credential that the lookup finds, and then attaches the document's
id. -/
theorem validateProject_next_iff (st : Server) (req : Req) :
    ((validateProject true st req).2.2 = Flow.next ↔
      ∃ key, apiKeyOf req.xApiKey req.queryApiKey = some key ∧ key.truthy = true ∧
        (Project.findOne st.projects st.nextRef key).isSome = true) ∧
    (∀ key, apiKeyOf req.xApiKey req.queryApiKey = some key →
      (validateProject true st req).2.2 = Flow.next →
      (validateProject true st req).2.1.projectId =
        (Project.findOne st.projects st.nextRef key).map (fun d => d._id)) := by
  unfold validateProject
  cases hk : apiKeyOf req.xApiKey req.queryApiKey with
  | none => simp
  | some apiKey =>
    dsimp only
    cases he : apiKey.truthy with
    | false => simp [he]
    | true =>
      cases hf : Project.findOne st.projects st.nextRef apiKey with
      | none => simp [hf]
      | some project => simp [hf, he]

/-- Claim C12 fails as stated: the credential of the active tenant `acme` is
in the header and the registry holds `acme`, but the registry lookup throws,
and the request is not passed on. -/
theorem validateProject_iff_counterexample :
    ((trackReq acmeCall).xApiKey = some "isk_acme" ∧
      acme ∈ (Server.start [acme]).projects ∧ acme.apiKey = "isk_acme" ∧
      acme.isActive = true) ∧
    (validateProject false (Server.start [acme]) (trackReq acmeCall)).2.2 ≠ Flow.next := by
  decide

/-- Claim C12, amended. When the registry lookup completes and the credential
is a string (the `x-api-key` header when it is not empty, otherwise the
`apiKey` query parameter, which is then absent or a string),
`validateProject` calls `next` if and only if that string is not empty and the
registry holds a tenant whose credential equals it and whose active flag is
true; in that case `req.projectId` carries the id of such a tenant. -/
theorem validateProject_iff (st : Server) (req : Req)
    (hstring : (req.xApiKey = none ∨ req.xApiKey = some "") →
      req.queryApiKey = none ∨ ∃ s, req.queryApiKey = some (QueryValue.str s)) :
    ((validateProject true st req).2.2 = Flow.next ↔
      ∃ key, (key ≠ "" ∧ (req.xApiKey = some key ∨
          ((req.xApiKey = none ∨ req.xApiKey = some "") ∧
            req.queryApiKey = some (QueryValue.str key)))) ∧
        ∃ p ∈ st.projects, p.apiKey = key ∧ p.isActive = true) ∧
    ((validateProject true st req).2.2 = Flow.next →
      ∃ p ∈ st.projects,
        apiKeyOf req.xApiKey req.queryApiKey = some (QueryValue.str p.apiKey) ∧
        p.isActive = true ∧
        ∃ o, (validateProject true st req).2.1.projectId = some o ∧ o.hex = p.id) := by
  obtain ⟨hiff, hid⟩ := validateProject_next_iff st req
  have hfound : ∀ key, (Project.findOne st.projects st.nextRef (QueryValue.str key)).isSome
      = true ↔ ∃ p ∈ st.projects, p.apiKey = key ∧ p.isActive = true := by
    intro key
    unfold Project.findOne
    rw [Option.isSome_map', List.find?_isSome]
    simp [QueryValue.selects]
  have hstr : ∀ v, apiKeyOf req.xApiKey req.queryApiKey = some v →
      ∃ key, v = QueryValue.str key := by
    intro v hv
    cases v with
    | str key => exact ⟨key, rfl⟩
    | ne s =>
      have h := (apiKeyOf_eq_ne_iff _ _ s).mp hv
      rcases hstring h.1 with hq | ⟨s', hq⟩ <;> · rw [hq] at h; cases h.2
  constructor
  · rw [hiff]
    constructor
    · rintro ⟨v, h1, h2, h3⟩
      obtain ⟨key, rfl⟩ := hstr v h1
      have hne : key ≠ "" := by simpa [QueryValue.truthy] using h2
      exact ⟨key, (apiKeyOf_eq_str_iff _ _ key).mp ⟨h1, hne⟩, (hfound key).mp h3⟩
    · rintro ⟨key, h1, h3⟩
      have := (apiKeyOf_eq_str_iff _ _ key).mpr h1
      exact ⟨QueryValue.str key, this.1, by simpa [QueryValue.truthy] using this.2,
        (hfound key).mpr h3⟩
  · intro hnext
    obtain ⟨v, h1, _, h3⟩ := hiff.mp hnext
    obtain ⟨key, rfl⟩ := hstr v h1
    have hpid := hid _ h1 hnext
    unfold Project.findOne at hpid h3
    cases hf : st.projects.find?
        (fun p => (QueryValue.str key).selects p.apiKey && p.isActive) with
    | none => rw [hf] at h3; cases h3
    | some p =>
      rw [hf] at hpid
      have hp := List.find?_some hf
      simp only [QueryValue.selects, Bool.and_eq_true, decide_eq_true_eq] at hp
      refine ⟨p, List.mem_of_find?_eq_some hf, by rw [h1, hp.1], hp.2, _, hpid, rfl⟩

/-- A concrete request for C12: the credential of tenant `acme` as the string
value of the query parameter, without the header. -/
theorem validateProject_iff_witness :
    (validateProject true (Server.start [acme]) (trackReq queryCall)).2.2 = Flow.next ∧
    ∃ p ∈ (Server.start [acme]).projects,
      apiKeyOf (trackReq queryCall).xApiKey (trackReq queryCall).queryApiKey =
        some (QueryValue.str p.apiKey) ∧
      p.isActive = true ∧
      ∃ o, (validateProject true (Server.start [acme]) (trackReq queryCall)).2.1.projectId =
        some o ∧ o.hex = p.id :=
  ⟨by decide,
    (validateProject_iff (Server.start [acme]) (trackReq queryCall)
      (fun _ => Or.inr ⟨"isk_acme", rfl⟩)).2 (by decide)⟩

/-- The rejections of the authenticator for string credentials: with no
credential, 401 `API key is required`, whatever the registry holds and whether
or not it answers; with a string credential that no active tenant has, once
the lookup completes, 401 `Invalid or inactive API key`; with a string
credential and a lookup that throws, 500, a response different from both
others. Each time server and request are left as they were. -/
theorem validateProject_rejections (registryUp : Bool) (st : Server) (req : Req) :
    ((req.xApiKey = none ∨ req.xApiKey = some "") →
      (req.queryApiKey = none ∨ req.queryApiKey = some (QueryValue.str "")) →
      validateProject registryUp st req =
        (st, req, Flow.respond (failure 401 "API key is required"))) ∧
    (∀ key, (key ≠ "" ∧ (req.xApiKey = some key ∨
        ((req.xApiKey = none ∨ req.xApiKey = some "") ∧
          req.queryApiKey = some (QueryValue.str key)))) →
      registryUp = true →
      (∀ p ∈ st.projects, ¬ (p.apiKey = key ∧ p.isActive = true)) →
      validateProject registryUp st req =
        (st, req, Flow.respond (failure 401 "Invalid or inactive API key"))) ∧
    (∀ key, (key ≠ "" ∧ (req.xApiKey = some key ∨
        ((req.xApiKey = none ∨ req.xApiKey = some "") ∧
          req.queryApiKey = some (QueryValue.str key)))) →
      registryUp = false →
      validateProject registryUp st req =
        (st, req, Flow.respond (failure 500 "Server error in project validation"))) ∧
    failure 500 "Server error in project validation" ≠ failure 401 "API key is required" ∧
    failure 500 "Server error in project validation" ≠
      failure 401 "Invalid or inactive API key" ∧
    failure 401 "API key is required" ≠ failure 401 "Invalid or inactive API key" := by
  refine ⟨?_, ?_, ?_, by decide, by decide, by decide⟩
  · intro hx hq
    unfold validateProject
    rcases hx with hx | hx <;> rcases hq with hq | hq <;>
      simp [hx, hq, apiKeyOf, QueryValue.truthy]
  · intro key hkey hup hnone
    obtain ⟨hk, hne⟩ := (apiKeyOf_eq_str_iff _ _ key).mpr hkey
    have hfind : Project.findOne st.projects st.nextRef (QueryValue.str key) = none := by
      unfold Project.findOne
      rw [Option.map_eq_none', List.find?_eq_none]
      intro p hp hc
      simp only [QueryValue.selects, Bool.and_eq_true, decide_eq_true_eq] at hc
      exact hnone p hp hc
    unfold validateProject
    rw [hk]
    dsimp only
    have ht : (QueryValue.str key).truthy = true := by simpa [QueryValue.truthy] using hne
    rw [ht, hup, hfind]
    rfl
  · intro key hkey hup
    obtain ⟨hk, hne⟩ := (apiKeyOf_eq_str_iff _ _ key).mpr hkey
    unfold validateProject
    rw [hk]
    dsimp only
    have ht : (QueryValue.str key).truthy = true := by simpa [QueryValue.truthy] using hne
    rw [ht, hup]
    rfl

/-- Claim C13, the code at the failing input: the request
`POST /api/analytics/track?apiKey[$ne]=x` without the `x-api-key` header, sent
to a server whose registry holds the active tenant `acme`. The credential
supplied is the object that the query parser makes of `apiKey[$ne]=x`; no
tenant has it, and no tenant has the key `x` either. The lookup completes, and
the authenticator does not reject with 401 `Invalid or inactive API key`: it
calls `next` with the id of `acme` attached, the route answers with the
handler's 200, and a record is stored under `acme`. -/
theorem validateProject_operator_credential :
    ((trackReq operatorCall).xApiKey = none ∧
      (trackReq operatorCall).queryApiKey = some (QueryValue.ne "x")) ∧
    (∀ p ∈ (Server.start [acme]).projects,
      QueryValue.str p.apiKey ≠ QueryValue.ne "x" ∧ p.apiKey ≠ "x") ∧
    (validateProject true (Server.start [acme]) (trackReq operatorCall)).2.2 = Flow.next ∧
    (validateProject true (Server.start [acme]) (trackReq operatorCall)).2.2 ≠
      Flow.respond (failure 401 "Invalid or inactive API key") ∧
    (validateProject true (Server.start [acme]) (trackReq operatorCall)).2.1.projectId.map
      (fun o => o.hex) = some acme.id ∧
    (trackAnalytics (Server.start [acme]) (trackReq operatorCall) quietEnv).2 = tracked ∧
    (trackAnalytics (Server.start [acme]) (trackReq operatorCall) quietEnv).1.metrics.map
      (fun m => m.projectId) = [some acme.id] := by
  decide

/-! ### Route performance -/

/-- The accumulators of a group after more of its records have been added. -/
theorem routeGroup_foldl_add (G : List Metric) :
    ∀ g : RouteGroup,
      (G.foldl RouteGroup.add g)._id = g._id ∧
      (G.foldl RouteGroup.add g).totalRequests = g.totalRequests + G.length ∧
      (G.foldl RouteGroup.add g).sumResponseTime =
        g.sumResponseTime + (G.map (fun m => m.performance.responseTime)).sum ∧
      (G.foldl RouteGroup.add g).errorCount =
        g.errorCount + (G.filter (fun m => m.error.isError)).length ∧
      (G.foldl RouteGroup.add g).successCount =
        g.successCount + (G.filter (fun m => !m.error.isError)).length ∧
      g.maxResponseTime ≤ (G.foldl RouteGroup.add g).maxResponseTime ∧
      (∀ m ∈ G, m.performance.responseTime ≤ (G.foldl RouteGroup.add g).maxResponseTime) ∧
      ((G.foldl RouteGroup.add g).maxResponseTime = g.maxResponseTime ∨
        ∃ m ∈ G, (G.foldl RouteGroup.add g).maxResponseTime = m.performance.responseTime) ∧
      (G.foldl RouteGroup.add g).minResponseTime ≤ g.minResponseTime ∧
      (∀ m ∈ G, (G.foldl RouteGroup.add g).minResponseTime ≤ m.performance.responseTime) ∧
      ((G.foldl RouteGroup.add g).minResponseTime = g.minResponseTime ∨
        ∃ m ∈ G, (G.foldl RouteGroup.add g).minResponseTime = m.performance.responseTime) := by
  induction G with
  | nil => intro g; simp
  | cons a rest ih =>
    intro g
    obtain ⟨h1, h2, h3, h4, h5, h6, h7, h8, h9, h10, h11⟩ := ih (RouteGroup.add g a)
    rw [List.foldl_cons]
    have hmax : (RouteGroup.add g a).maxResponseTime =
        max g.maxResponseTime a.performance.responseTime := rfl
    have hmin : (RouteGroup.add g a).minResponseTime =
        min g.minResponseTime a.performance.responseTime := rfl
    refine ⟨h1, ?_, ?_, ?_, ?_, ?_, ?_, ?_, ?_, ?_, ?_⟩
    · rw [h2]
      simp only [RouteGroup.add, List.length_cons]
      omega
    · rw [h3]
      simp only [RouteGroup.add, List.map_cons, List.sum_cons]
      omega
    · rw [h4]
      cases he : a.error.isError
      all_goals simp [RouteGroup.add, he, List.filter_cons]
      all_goals omega
    · rw [h5]
      cases he : a.error.isError
      all_goals simp [RouteGroup.add, he, List.filter_cons]
      all_goals omega
    · omega
    · intro m hm
      rcases List.mem_cons.mp hm with hm | hm
      · rw [hm]; omega
      · exact h7 m hm
    · rcases h8 with h | ⟨m, hm, h⟩
      · have : max g.maxResponseTime a.performance.responseTime = g.maxResponseTime ∨
            max g.maxResponseTime a.performance.responseTime = a.performance.responseTime := by
          omega
        rcases this with h' | h'
        · left; omega
        · right; exact ⟨a, List.mem_cons_self _ _, by omega⟩
      · right; exact ⟨m, List.mem_cons_of_mem _ hm, h⟩
    · omega
    · intro m hm
      rcases List.mem_cons.mp hm with hm | hm
      · rw [hm]; omega
      · exact h10 m hm
    · rcases h11 with h | ⟨m, hm, h⟩
      · have : min g.minResponseTime a.performance.responseTime = g.minResponseTime ∨
            min g.minResponseTime a.performance.responseTime = a.performance.responseTime := by
          omega
        rcases this with h' | h'
        · left; omega
        · right; exact ⟨a, List.mem_cons_self _ _, by omega⟩
      · right; exact ⟨m, List.mem_cons_of_mem _ hm, h⟩

/-- Every entry of the result is the finished state of the group of its key,
which is not empty. -/
theorem getRoutePerformance_entry (matched : List Metric) (e : RouteStats)
    (he : e ∈ (groupFold (fun m => m.route) RouteGroup.init RouteGroup.add
      matched).entries.map (fun e => RouteGroup.finish e.2)) :
    ∃ x xs, matched.filter (fun m => decide (m.route = e._id)) = x :: xs ∧
      e = RouteGroup.finish ((x :: xs).foldl RouteGroup.add (RouteGroup.init x)) := by
  obtain ⟨kv, hkv, hfin⟩ := List.mem_map.mp he
  obtain ⟨x, xs, hfilter, hfold⟩ := groupFold_entry (fun m : Metric => m.route)
    RouteGroup.init RouteGroup.add matched kv hkv
  have hx : x ∈ matched.filter (fun m => decide (m.route = kv.1)) := by
    rw [hfilter]
    exact List.mem_cons_self _ _
  have hroute : x.route = kv.1 := by simpa using (List.mem_filter.mp hx).2
  have hid : e._id = kv.1 := by
    rw [← hfin, hfold]
    show ((x :: xs).foldl RouteGroup.add (RouteGroup.init x))._id = kv.1
    rw [(routeGroup_foldl_add (x :: xs) (RouteGroup.init x)).1]
    exact hroute
  refine ⟨x, xs, by rw [hid]; exact hfilter, ?_⟩
  rw [← hfold]
  exact hfin.symm

/-- The keys of the result are the keys of the groups. -/
theorem getRoutePerformance_ids (matched : List Metric) :
    ((groupFold (fun m => m.route) RouteGroup.init RouteGroup.add
      matched).entries.map (fun e => RouteGroup.finish e.2)).map (fun e => e._id) =
    (groupFold (fun m => m.route) RouteGroup.init RouteGroup.add
      matched).entries.map Prod.fst := by
  rw [List.map_map]
  apply List.map_congr_left
  intro kv hkv
  obtain ⟨x, xs, hfilter, hfold⟩ := groupFold_entry (fun m : Metric => m.route)
    RouteGroup.init RouteGroup.add matched kv hkv
  have hx : x ∈ matched.filter (fun m => decide (m.route = kv.1)) := by
    rw [hfilter]
    exact List.mem_cons_self _ _
  have hroute : x.route = kv.1 := by simpa using (List.mem_filter.mp hx).2
  show (RouteGroup.finish kv.2)._id = kv.1
  rw [hfold]
  show ((x :: xs).foldl RouteGroup.add (RouteGroup.init x))._id = kv.1
  rw [(routeGroup_foldl_add (x :: xs) (RouteGroup.init x)).1]
  exact hroute

/-- The specification's example, evaluated: `GET /a` with two requests, average
200 and error rate 50, followed by `POST /b` with error rate 0. -/
theorem routeSample_performance :
    Metric.getRoutePerformance routeSample "p" 1 3660000 =
      [{ _id := { path := "/a", method := "GET" }
         totalRequests := 2
         avgResponseTime := 200
         maxResponseTime := 300
         minResponseTime := 100
         errorCount := 1
         successCount := 1
         errorRate := 50
         successRate := 50 },
       { _id := { path := "/b", method := "POST" }
         totalRequests := 1
         avgResponseTime := 50
         maxResponseTime := 50
         minResponseTime := 50
         errorCount := 0
         successCount := 1
         errorRate := 0
         successRate := 100 }] := by
  have hstart : startDate 3660000 1 = 60000 := by norm_num [startDate, timeClip]
  have hgroups : (groupFold (fun m => m.route) RouteGroup.init RouteGroup.add
      (routeSample.filter (fun m => decide (m.projectId = some "p") &&
        decide (m.timestamp ≥ 60000)))).entries.map (fun e => e.2) =
      [{ _id := { path := "/a", method := "GET" }, totalRequests := 2, sumResponseTime := 400,
         maxResponseTime := 300, minResponseTime := 100, errorCount := 1, successCount := 1 },
       { _id := { path := "/b", method := "POST" }, totalRequests := 1, sumResponseTime := 50,
         maxResponseTime := 50, minResponseTime := 50, errorCount := 0, successCount := 1 }] := by
    decide
  unfold Metric.getRoutePerformance
  rw [hstart]
  dsimp only
  have hmap : ∀ L : List (Route × RouteGroup),
      L.map (fun e => RouteGroup.finish e.2) = (L.map (fun e => e.2)).map RouteGroup.finish := by
    intro L
    rw [List.map_map]
    rfl
  rw [hmap, hgroups]
  simp [List.insertionSort, List.orderedInsert, RouteGroup.finish]
  norm_num

/-- Claim C19. Over the tenant's records inside the lookback window,
`getRoutePerformance` returns exactly one entry per (path, method) pair that
occurs; the entry reports the size of the pair's group, the mean, greatest and
least latency over the group, the numbers of records with and without the
error flag, and the two rates `count / totalRequests * 100`; the entries are
in non-increasing order of `totalRequests`; and the specification's example
yields `GET /a` (average 200, error rate 50) followed by `POST /b` (error rate
0). -/
theorem getRoutePerformance_groups (store : List Metric) (projectId : String)
    (timeRange : ℚ) (now : Int) :
    let matched := store.filter (fun m => decide (m.projectId = some projectId ∧
      m.timestamp ≥ startDate now timeRange))
    let result := Metric.getRoutePerformance store projectId timeRange now
    (result.map (fun e => e._id)).Nodup ∧
    (∀ r : Route, r ∈ result.map (fun e => e._id) ↔ ∃ m ∈ matched, m.route = r) ∧
    (∀ e ∈ result,
      matched.filter (fun m => decide (m.route = e._id)) ≠ [] ∧
      e.totalRequests = (matched.filter (fun m => decide (m.route = e._id))).length ∧
      e.avgResponseTime =
        (((matched.filter (fun m => decide (m.route = e._id))).map
          (fun m => m.performance.responseTime)).sum : ℚ) / (e.totalRequests : ℚ) ∧
      (∃ m ∈ matched.filter (fun m => decide (m.route = e._id)),
        e.maxResponseTime = m.performance.responseTime) ∧
      (∀ m ∈ matched.filter (fun m => decide (m.route = e._id)),
        m.performance.responseTime ≤ e.maxResponseTime) ∧
      (∃ m ∈ matched.filter (fun m => decide (m.route = e._id)),
        e.minResponseTime = m.performance.responseTime) ∧
      (∀ m ∈ matched.filter (fun m => decide (m.route = e._id)),
        e.minResponseTime ≤ m.performance.responseTime) ∧
      e.errorCount = ((matched.filter (fun m => decide (m.route = e._id))).filter
        (fun m => m.error.isError)).length ∧
      e.successCount = ((matched.filter (fun m => decide (m.route = e._id))).filter
        (fun m => !m.error.isError)).length ∧
      e.errorRate = (e.errorCount : ℚ) / (e.totalRequests : ℚ) * 100 ∧
      e.successRate = (e.successCount : ℚ) / (e.totalRequests : ℚ) * 100) ∧
    result.Pairwise (fun a b => a.totalRequests ≥ b.totalRequests) ∧
    (Metric.getRoutePerformance routeSample "p" 1 3660000).map
        (fun e => (e._id.method, e._id.path, e.totalRequests, e.avgResponseTime,
          e.errorRate)) =
      [("GET", "/a", 2, 200, 50), ("POST", "/b", 1, 50, 0)] := by
  intro matched result
  have hmatched : store.filter (fun m => decide (m.projectId = some projectId) &&
      decide (m.timestamp ≥ startDate now timeRange)) = matched := by
    apply List.filter_congr
    intro m _
    simp
  have hresult : result = ((groupFold (fun m => m.route) RouteGroup.init RouteGroup.add
      matched).entries.map (fun e => RouteGroup.finish e.2)).insertionSort
        (fun a b => a.totalRequests ≥ b.totalRequests) := by
    show Metric.getRoutePerformance store projectId timeRange now = _
    unfold Metric.getRoutePerformance
    rw [hmatched]
  have hperm : result.Perm ((groupFold (fun m => m.route) RouteGroup.init RouteGroup.add
      matched).entries.map (fun e => RouteGroup.finish e.2)) := by
    rw [hresult]
    exact List.perm_insertionSort _ _
  have hids := getRoutePerformance_ids matched
  refine ⟨?_, ?_, ?_, ?_, ?_⟩
  · rw [(hperm.map (fun e => e._id)).nodup_iff, hids]
    exact groupFold_nodup _ _ _ _
  · intro r
    rw [(hperm.map (fun e => e._id)).mem_iff, hids, groupFold_mem_keys]
  · intro e he
    obtain ⟨x, xs, hfilter, hfin⟩ := getRoutePerformance_entry matched e (hperm.mem_iff.mp he)
    rw [hfilter]
    obtain ⟨_, h2, h3, h4, h5, _, h7, h8, _, h10, h11⟩ :=
      routeGroup_foldl_add (x :: xs) (RouteGroup.init x)
    have htotal : e.totalRequests = (x :: xs).length := by
      rw [hfin]
      show ((x :: xs).foldl RouteGroup.add (RouteGroup.init x)).totalRequests = _
      rw [h2]
      simp [RouteGroup.init]
    have herr : e.errorCount = ((x :: xs).filter (fun m => m.error.isError)).length := by
      rw [hfin]
      show ((x :: xs).foldl RouteGroup.add (RouteGroup.init x)).errorCount = _
      rw [h4]
      simp [RouteGroup.init]
    have hsucc : e.successCount = ((x :: xs).filter (fun m => !m.error.isError)).length := by
      rw [hfin]
      show ((x :: xs).foldl RouteGroup.add (RouteGroup.init x)).successCount = _
      rw [h5]
      simp [RouteGroup.init]
    have hmaxeq : e.maxResponseTime =
        ((x :: xs).foldl RouteGroup.add (RouteGroup.init x)).maxResponseTime := by
      rw [hfin]; rfl
    have hmineq : e.minResponseTime =
        ((x :: xs).foldl RouteGroup.add (RouteGroup.init x)).minResponseTime := by
      rw [hfin]; rfl
    refine ⟨by simp, htotal, ?_, ?_, ?_, ?_, ?_, herr, hsucc, ?_, ?_⟩
    · have hsum : e.avgResponseTime =
          ((((x :: xs).foldl RouteGroup.add (RouteGroup.init x)).sumResponseTime : Int) : ℚ) /
            (e.totalRequests : ℚ) := by
        rw [hfin]; rfl
      rw [hsum, h3]
      simp [RouteGroup.init, Function.comp_def]
    · rw [hmaxeq]
      rcases h8 with h | h
      · exact ⟨x, List.mem_cons_self _ _, h⟩
      · exact h
    · rw [hmaxeq]
      exact h7
    · rw [hmineq]
      rcases h11 with h | h
      · exact ⟨x, List.mem_cons_self _ _, h⟩
      · exact h
    · rw [hmineq]
      exact h10
    · rw [hfin]; rfl
    · rw [hfin]; rfl
  · rw [hresult]
    haveI : IsTotal RouteStats (fun a b => a.totalRequests ≥ b.totalRequests) :=
      ⟨fun a b => le_total b.totalRequests a.totalRequests⟩
    haveI : IsTrans RouteStats (fun a b => a.totalRequests ≥ b.totalRequests) :=
      ⟨fun a b c hab hbc => le_trans hbc hab⟩
    exact List.sorted_insertionSort (fun a b : RouteStats => a.totalRequests ≥ b.totalRequests) _
  · rw [routeSample_performance]
    rfl

/-! ### Error analysis -/

/-- The entry of a key after the records of a group have been added. -/
theorem errorGroup_foldl_add (G : List Metric) :
    ∀ g : ErrorGroup, G.foldl ErrorGroup.add g =
      { route := g.route
        count := g.count + G.length
        errors := g.errors ++ G.map ErrorItem.ofMetric } := by
  induction G with
  | nil => intro g; simp
  | cons m rest ih =>
    intro g
    rw [List.foldl_cons, ih]
    simp [ErrorGroup.add, Nat.add_assoc, Nat.add_comm 1]

/-- Every entry of `errorGroups` is filed under the key of its route and holds
the records of that key, in the order fetched. -/
theorem errorGroups_entry (errorMetrics : List Metric) (kv : String × ErrorGroup)
    (hkv : kv ∈ (groupFold (fun m => errorKey m.route) ErrorGroup.init ErrorGroup.add
      errorMetrics).entries) :
    errorKey kv.2.route = kv.1 ∧
    errorMetrics.filter (fun m => decide (errorKey m.route = kv.1)) ≠ [] ∧
    kv.2.count = (errorMetrics.filter (fun m => decide (errorKey m.route = kv.1))).length ∧
    kv.2.errors = (errorMetrics.filter (fun m => decide (errorKey m.route = kv.1))).map
      ErrorItem.ofMetric := by
  obtain ⟨x, xs, hfilter, hfold⟩ := groupFold_entry (fun m : Metric => errorKey m.route)
    ErrorGroup.init ErrorGroup.add errorMetrics kv hkv
  have hx : x ∈ errorMetrics.filter (fun m => decide (errorKey m.route = kv.1)) := by
    rw [hfilter]
    exact List.mem_cons_self _ _
  have hroute : errorKey x.route = kv.1 := by simpa using (List.mem_filter.mp hx).2
  rw [hfilter, hfold, errorGroup_foldl_add]
  refine ⟨hroute, by simp, ?_, ?_⟩ <;> simp [ErrorGroup.init]

/-- The data computed from the error records fetched for a window that starts
at `start`: the records fetched are the tenant's records from `start` on whose
error flag is set; `totalErrors` is their number; there is exactly one group
per key `METHOD path` that occurs among them; a group reports the number of
its key's records and one (timestamp, status code, message) triple per record;
and the groups are in non-increasing order of count. -/
theorem errorAnalysis_of_find (store : List Metric) (projectId : String) (start : Int) :
    let errors := Metric.find store projectId start true
    let analysis := errorAnalysis errors
    errors.Perm (store.filter (fun m => decide (m.projectId = some projectId ∧
      m.timestamp ≥ start ∧ m.error.isError = true))) ∧
    analysis.totalErrors = (store.filter (fun m => decide (m.projectId = some projectId ∧
      m.timestamp ≥ start ∧ m.error.isError = true))).length ∧
    (analysis.errorGroups.map (fun g => errorKey g.route)).Nodup ∧
    (∀ key : String, key ∈ analysis.errorGroups.map (fun g => errorKey g.route) ↔
      ∃ m ∈ errors, errorKey m.route = key) ∧
    (∀ g ∈ analysis.errorGroups,
      g.count = (errors.filter (fun m => decide (errorKey m.route = errorKey g.route))).length ∧
      g.errors = (errors.filter (fun m => decide (errorKey m.route = errorKey g.route))).map
        ErrorItem.ofMetric) ∧
    analysis.errorGroups.Pairwise (fun a b => a.count ≥ b.count) := by
  intro errors analysis
  have hfound : errors.Perm (store.filter (fun m => decide (m.projectId = some projectId ∧
      m.timestamp ≥ start ∧ m.error.isError = true))) := by
    show (Metric.find store projectId start true).Perm _
    unfold Metric.find
    have hfilter : store.filter (fun m => decide (m.projectId = some projectId) &&
        decide (m.timestamp ≥ start) && (!true || m.error.isError)) =
        store.filter (fun m => decide (m.projectId = some projectId ∧
          m.timestamp ≥ start ∧ m.error.isError = true)) := by
      apply List.filter_congr
      intro m _
      simp [and_assoc, Bool.and_assoc]
    rw [hfilter]
    exact List.perm_insertionSort _ _
  have hgroups : analysis.errorGroups = ((groupFold (fun m => errorKey m.route)
      ErrorGroup.init ErrorGroup.add errors).entries.map (fun e => e.2)).insertionSort
        (fun a b => a.count ≥ b.count) := rfl
  have hperm : analysis.errorGroups.Perm ((groupFold (fun m => errorKey m.route)
      ErrorGroup.init ErrorGroup.add errors).entries.map (fun e => e.2)) := by
    rw [hgroups]
    exact List.perm_insertionSort _ _
  have hkeys : ((groupFold (fun m => errorKey m.route) ErrorGroup.init ErrorGroup.add
      errors).entries.map (fun e => e.2)).map (fun g => errorKey g.route) =
      (groupFold (fun m => errorKey m.route) ErrorGroup.init ErrorGroup.add
        errors).entries.map Prod.fst := by
    rw [List.map_map]
    apply List.map_congr_left
    intro kv hkv
    exact (errorGroups_entry errors kv hkv).1
  refine ⟨hfound, ?_, ?_, ?_, ?_, ?_⟩
  · show errors.length = _
    exact hfound.length_eq
  · rw [(hperm.map (fun g => errorKey g.route)).nodup_iff, hkeys]
    exact groupFold_nodup _ _ _ _
  · intro key
    rw [(hperm.map (fun g => errorKey g.route)).mem_iff, hkeys, groupFold_mem_keys]
  · intro g hg
    obtain ⟨kv, hkv, hkvg⟩ := List.mem_map.mp (hperm.mem_iff.mp hg)
    obtain ⟨h1, _, h3, h4⟩ := errorGroups_entry errors kv hkv
    rw [← hkvg, h1]
    exact ⟨h3, h4⟩
  · rw [hgroups]
    haveI : IsTotal ErrorGroup (fun a b => a.count ≥ b.count) :=
      ⟨fun a b => le_total b.count a.count⟩
    haveI : IsTrans ErrorGroup (fun a b => a.count ≥ b.count) :=
      ⟨fun a b c hab hbc => le_trans hbc hab⟩
    exact List.sorted_insertionSort (fun a b : ErrorGroup => a.count ≥ b.count) _

/-- Claim C20. When the calling user owns the tenant and both stores answer,
the handler `getErrorAnalysis` answers with the data of the error analysis:
it works on the tenant's stored records inside the lookback window (`range`
hours before now, 24 when the query gives none) whose error flag is set, and
on no others; `totalErrors` is their number; there is exactly one group per
key `METHOD path` that occurs among them; a group reports the number of its
key's records and one (timestamp, status code, message) triple per record; and
the groups are in non-increasing order of count. -/
theorem getErrorAnalysis_groups (st : Server) (env : QueryEnv) (userId projectId : String)
    (range : Option ℚ) (p : Project)
    (hregistry : env.registryUp = true) (hmetrics : env.metricsUp = true)
    (howner : Project.findOwned st.projects projectId userId = some p) :
    ∃ data : ErrorAnalysis,
      getErrorAnalysis st env userId projectId range = Reply.ok data ∧
      (let start := startDate env.now (range.getD 24)
       let errors := Metric.find st.metrics projectId start true
       errors.Perm (st.metrics.filter (fun m => decide (m.projectId = some projectId ∧
         m.timestamp ≥ start ∧ m.error.isError = true))) ∧
       data.totalErrors = (st.metrics.filter (fun m => decide (m.projectId = some projectId ∧
         m.timestamp ≥ start ∧ m.error.isError = true))).length ∧
       (data.errorGroups.map (fun g => errorKey g.route)).Nodup ∧
       (∀ key : String, key ∈ data.errorGroups.map (fun g => errorKey g.route) ↔
         ∃ m ∈ errors, errorKey m.route = key) ∧
       (∀ g ∈ data.errorGroups,
         g.count =
           (errors.filter (fun m => decide (errorKey m.route = errorKey g.route))).length ∧
         g.errors =
           (errors.filter (fun m => decide (errorKey m.route = errorKey g.route))).map
             ErrorItem.ofMetric) ∧
       data.errorGroups.Pairwise (fun a b => a.count ≥ b.count)) := by
  refine ⟨errorAnalysis (Metric.find st.metrics projectId
    (startDate env.now (range.getD 24)) true), ?_, ?_⟩
  · unfold getErrorAnalysis
    rw [hregistry, howner, hmetrics]
    rfl
  · exact errorAnalysis_of_find st.metrics projectId (startDate env.now (range.getD 24))

/-- The default lookback of 24 hours at 24:01:00 after the epoch starts at
00:01:00. -/
theorem errorSample_start : startDate 86460000 ((none : Option ℚ).getD 24) = 60000 := by
  norm_num [startDate, timeClip]

/-- The error analysis of `errorSample` for its owner at 24:01:00 after the
epoch with the default lookback: the successful record, the record before the
window and the record of the other tenant are left out; `GET /a` has two
errors, newest first, and `POST /b` has one. -/
theorem errorSample_analysis :
    getErrorAnalysis errorServer ⟨86460000, true, true⟩ "u1" "p" none =
      Reply.ok
        { totalErrors := 3
          errorGroups :=
            [{ route := { path := "/a", method := "GET" }
               count := 2
               errors := [⟨900000, 503, some "HTTP 503"⟩, ⟨600000, 500, some "HTTP 500"⟩] },
             { route := { path := "/b", method := "POST" }
               count := 1
               errors := [⟨700000, 404, some "HTTP 404"⟩] }] } := by
  unfold getErrorAnalysis
  simp only [errorSample_start]
  decide

/-- A concrete query for C20: the owner of `demo` asks for the error analysis
of `errorSample` with the default lookback. -/
theorem getErrorAnalysis_groups_witness :
    Project.findOwned errorServer.projects "p" "u1" = some demo ∧
    ∃ data : ErrorAnalysis,
      getErrorAnalysis errorServer ⟨86460000, true, true⟩ "u1" "p" none = Reply.ok data ∧
      data.totalErrors = 3 ∧
      (data.errorGroups.map (fun g => errorKey g.route)).Nodup ∧
      data.errorGroups.Pairwise (fun a b => a.count ≥ b.count) := by
  obtain ⟨data, hreply, -, htotal, hnodup, -, -, hsorted⟩ :=
    getErrorAnalysis_groups errorServer ⟨86460000, true, true⟩ "u1" "p" none demo rfl rfl
      (by decide)
  refine ⟨by decide, data, hreply, ?_, hnodup, hsorted⟩
  rw [htotal]
  simp only [errorSample_start]
  decide

section Limiter
variable {κ : Type} [DecidableEq κ]

/-- A call keeps every log within the limit. -/
theorem projectRateLimit_bound (windowMs max : Int) (requests : Requests κ)
    (projectId : κ) (now : Int)
    (h : ∀ k, ((logOf requests k).length : Int) ≤ max) :
    ∀ k, ((logOf (projectRateLimit windowMs max requests projectId now).1 k).length : Int)
      ≤ max := by
  intro k
  by_cases hk : k = projectId
  · subst hk
    rw [projectRateLimit_logOf_same]
    have hle := List.length_filter_le (fun time => decide (time > now - windowMs))
      (logOf requests k)
    have hk := h k
    split
    · unfold validRequests
      omega
    · rename_i hroom
      rw [List.length_append]
      simp only [List.length_cons, List.length_nil]
      push_cast
      omega
  · rw [projectRateLimit_logOf_other _ _ _ _ _ _ hk]
    exact h k

/-- A sequence of calls keeps every log within the limit. -/
theorem runCalls_bound (windowMs max : Int) (calls : List (κ × Int)) :
    ∀ requests : Requests κ, (∀ k, ((logOf requests k).length : Int) ≤ max) →
      ∀ k, ((logOf (runCalls windowMs max requests calls).1 k).length : Int) ≤ max := by
  induction calls with
  | nil => intro requests h; exact h
  | cons c rest ih =>
    intro requests h
    obtain ⟨projectId, now⟩ := c
    exact ih _ (projectRateLimit_bound windowMs max requests projectId now h)

/-- Claim C26. For a limiter with `max ≥ 0` started from the empty map, after
any sequence of calls, for any tenants at any times, no tenant's log holds
more than `max` timestamps. -/
theorem projectRateLimit_log_bound (windowMs max : Int) (calls : List (κ × Int)) (T : κ)
    (hmax : 0 ≤ max) :
    ((logOf (runCalls windowMs max (JSMap.empty : Requests κ) calls).1 T).length : Int)
      ≤ max :=
  runCalls_bound windowMs max calls JSMap.empty (fun _ => by simpa [logOf, JSMap.get, JSMap.empty, JSMap.lookup] using hmax) T

/-- A concrete run for C26: limit 2, three calls of one tenant and one of another. -/
theorem projectRateLimit_log_bound_witness :
    ((logOf (runCalls 1000 2 (JSMap.empty : Requests Nat)
      [(7, 10), (7, 20), (8, 25), (7, 30)]).1 7).length : Int) ≤ 2 :=
  projectRateLimit_log_bound 1000 2 [(7, 10), (7, 20), (8, 25), (7, 30)] 7 (by decide)

end Limiter

/-- The authenticator does not read the body: it returns the same server and
flow, and the request with the same body replaced. -/
theorem validateProject_body (registryUp : Bool) (st : Server) (req : Req) (body : String) :
    validateProject registryUp st { req with body := body } =
      ((validateProject registryUp st req).1,
        { (validateProject registryUp st req).2.1 with body := body },
        (validateProject registryUp st req).2.2) := by
  unfold validateProject
  dsimp only
  cases apiKeyOf req.xApiKey req.queryApiKey with
  | none => rfl
  | some apiKey =>
    dsimp only
    split
    · rfl
    · split
      · rfl
      · cases Project.findOne st.projects st.nextRef apiKey <;> rfl

/-- The track route does not read the body. -/
theorem trackAnalytics_body (st : Server) (req : Req) (env : Env) (body : String) :
    trackAnalytics st { req with body := body } env = trackAnalytics st req env := by
  unfold trackAnalytics
  rw [validateProject_body]
  rcases validateProject env.registryUp st req with ⟨st₁, req₁, flow⟩
  cases flow with
  | respond r => rfl
  | next =>
    dsimp only
    rcases projectRateLimit (15 * 60 * 1000) 1000 st₁.requests req₁.projectId env.now with
      ⟨requests, flow₂⟩
    cases flow₂ <;> rfl


/-- The track route in full, case by case: the authenticator's rejection, the
limiter's rejection, or the recorder run on the request with the tenant
attached and the handler's response object. -/
theorem trackAnalytics_forms (st : Server) (req : Req) (env : Env) :
    (∃ r, (r.status = 401 ∨ r.status = 500) ∧ trackAnalytics st req env = (st, r)) ∨
    (∃ r requests, r.status = 429 ∧
      trackAnalytics st req env =
        ({ st with requests := requests, nextRef := st.nextRef + 1 }, r)) ∨
    (∃ apiKey doc requests, apiKeyOf req.xApiKey req.queryApiKey = some apiKey ∧
      Project.findOne st.projects st.nextRef apiKey = some doc ∧
      trackAnalytics st req env =
        (send env { st with requests := requests, nextRef := st.nextRef + 1 }
          { req with projectId := some doc._id, project := some doc }
          { statusCode := 200, contentType := some "application/json", contentLength := none }
          trackedJson, tracked)) := by
  rcases validateProject_cases env.registryUp st req with
    ⟨r, hr, hv⟩ | ⟨apiKey, project, hkey, hfind, hv⟩
  · left
    refine ⟨r, hr, ?_⟩
    unfold trackAnalytics
    rw [hv]
  · right
    unfold trackAnalytics
    rw [hv]
    dsimp only
    cases hl : projectRateLimit (15 * 60 * 1000) 1000 st.requests (some project._id)
      env.now with
    | mk requests flow =>
      cases flow with
      | respond r =>
        left
        exact ⟨r, requests, projectRateLimit_respond_status _ _ _ _ _ r (by rw [hl]), rfl⟩
      | next =>
        right
        exact ⟨apiKey, project, requests, hkey, hfind, rfl⟩

/-- The event that the recorder emits for a stored record. -/
theorem send_metrics (env : Env) (st : Server) (req : Req) (res : Res) (data : String) :
    (send env st req res data).metrics =
      if env.persistOk then
        st.metrics ++ [analyticsData req res data (env.endTime - env.startTime) env.timestamp]
      else st.metrics := by
  unfold send saveAnalytics
  cases env.persistOk
  · rfl
  · cases hio : st.io <;> simp [hio]

/-- The events after the recorder has run. -/
theorem send_emitted_eq (env : Env) (st : Server) (req : Req) (res : Res) (data : String) :
    (send env st req res data).emitted =
      if env.persistOk && st.io then
        st.emitted ++ [{ room := roomOf req.projectId
                         route := (analyticsData req res data (env.endTime - env.startTime)
                           env.timestamp).route
                         responseTime := env.endTime - env.startTime
                         statusCode := res.statusCode
                         timestamp := env.timestamp }]
      else st.emitted := by
  unfold send saveAnalytics
  cases env.persistOk
  · rfl
  · cases hio : st.io
    · simp [hio]
    · simp [hio]
      rfl

/-- The recorder changes neither the registry nor the `io` setting. -/
theorem send_frame (env : Env) (st : Server) (req : Req) (res : Res) (data : String) :
    (send env st req res data).projects = st.projects ∧
      (send env st req res data).io = st.io := by
  unfold send saveAnalytics
  cases env.persistOk
  · exact ⟨rfl, rfl⟩
  · cases hio : st.io <;> simp [hio]

/-- Claim C27. The record stored for a `POST /track` request does not depend
on the request body: two track requests that differ only in their body leave
the same server (the same records) and get the same response, and every
record stored for a track request has method `POST`, status code 200 and the
error flag false. -/
theorem track_record_ignores_body (st : Server) (c : TrackCall) (env : Env) (body : String) :
    trackAnalytics st (trackReq { c with body := body }) env =
      trackAnalytics st (trackReq c) env ∧
    (∀ record, (trackAnalytics st (trackReq c) env).1.metrics = st.metrics ++ [record] →
      record.route.method = "POST" ∧ record.route.path = "/track" ∧
      record.response.statusCode = 200 ∧ record.error.isError = false ∧
      record.error.message = none) := by
  constructor
  · exact trackAnalytics_body st (trackReq c) env body
  · intro record hrec
    rcases trackAnalytics_forms st (trackReq c) env with
      ⟨r, _, h⟩ | ⟨r, requests, _, h⟩ | ⟨apiKey, doc, requests, _, _, h⟩
    · rw [h] at hrec
      have := congrArg List.length hrec
      simp at this
    · rw [h] at hrec
      have := congrArg List.length hrec
      simp at this
    · rw [h] at hrec
      dsimp only at hrec
      rw [send_metrics] at hrec
      cases hp : env.persistOk with
      | false =>
        rw [hp] at hrec
        have := congrArg List.length hrec
        simp at this
      | true =>
        rw [hp] at hrec
        have hrec' : (analyticsData
            { trackReq c with projectId := some doc._id, project := some doc }
            { statusCode := 200, contentType := some "application/json", contentLength := none }
            trackedJson (env.endTime - env.startTime) env.timestamp) = record := by
          simpa using hrec
        rw [← hrec']
        exact ⟨rfl, by simp [analyticsData, trackReq, orElse], rfl,
          by simp [analyticsData], by simp [analyticsData]⟩


/-! ### The buckets partition the fetched records -/

section GroupSums

variable {α κ β : Type} [DecidableEq κ]

/-- Setting a key changes the sum of a measure over the values by the
difference between the new value and the one replaced. -/
theorem JSMap.update_sum (f : β → Nat) (l : List (κ × β)) (k : κ) (v : β) :
    ((JSMap.update l k v).map (fun e => f e.2)).sum + ((JSMap.lookup l k).map f).getD 0 =
      (l.map (fun e => f e.2)).sum + f v := by
  induction l with
  | nil => simp [JSMap.update, JSMap.lookup]
  | cons e rest ih =>
    obtain ⟨k', v'⟩ := e
    by_cases hk : k' = k
    · simp [JSMap.update, JSMap.lookup, hk]
      omega
    · simp only [JSMap.update, JSMap.lookup, if_neg hk, List.map_cons, List.sum_cons]
      omega

/-- A measure that starts at 0 and grows by a weight with every record sums,
over the groups, to the total weight of the records. -/
theorem groupStep_foldl_sum (key : α → κ) (init : α → β) (step : β → α → β)
    (f : β → Nat) (w : α → Nat) (hinit : ∀ x, f (init x) = 0)
    (hstep : ∀ b x, f (step b x) = f b + w x) (l : List α) :
    ∀ acc : JSMap κ β,
      ((l.foldl (groupStep key init step) acc).entries.map (fun e => f e.2)).sum =
        (acc.entries.map (fun e => f e.2)).sum + (l.map w).sum := by
  induction l with
  | nil => intro acc; simp
  | cons x rest ih =>
    intro acc
    rw [List.foldl_cons, ih]
    have h := JSMap.update_sum f acc.entries (key x)
      (step ((acc.get (key x)).getD (init x)) x)
    have hentries : (groupStep key init step acc x).entries =
        JSMap.update acc.entries (key x) (step ((acc.get (key x)).getD (init x)) x) := rfl
    rw [hentries, List.map_cons, List.sum_cons]
    have hlook : JSMap.lookup acc.entries (key x) = acc.get (key x) := rfl
    rw [hlook, hstep] at h
    cases hl : acc.get (key x) with
    | none =>
      have hz : f (none.getD (init x)) = 0 := hinit x
      have hn : (Option.map f (none : Option β)).getD 0 = 0 := rfl
      rw [hl, hz, hn] at h
      omega
    | some b =>
      have hz : f ((some b).getD (init x)) = f b := rfl
      have hn : (Option.map f (some b)).getD 0 = f b := rfl
      rw [hl, hz, hn] at h
      omega

/-- The sum of such a measure over the groups of a grouping loop. -/
theorem groupFold_sum (key : α → κ) (init : α → β) (step : β → α → β)
    (f : β → Nat) (w : α → Nat) (hinit : ∀ x, f (init x) = 0)
    (hstep : ∀ b x, f (step b x) = f b + w x) (l : List α) :
    ((groupFold key init step l).entries.map (fun e => f e.2)).sum = (l.map w).sum := by
  unfold groupFold
  rw [groupStep_foldl_sum key init step f w hinit hstep]
  simp [JSMap.empty]

end GroupSums

/-- The number of records with the error flag, as a sum of ones. -/
theorem errors_sum (l : List Metric) :
    (l.map (fun m => if m.error.isError then 1 else 0)).sum =
      (l.filter (fun m => m.error.isError)).length := by
  induction l with
  | nil => rfl
  | cons m rest ih =>
    cases he : m.error.isError <;> simp [List.filter_cons, he, ih]
    omega

/-- The buckets of the series partition the records given to it. -/
theorem timeSeries_sums (iv : Int) (metrics : List Metric) :
    ((timeSeries iv metrics).map (fun e => e.requests)).sum = (summary metrics).totalRequests ∧
    ((timeSeries iv metrics).map (fun e => e.errors)).sum = (summary metrics).errorCount ∧
    (∀ e ∈ timeSeries iv metrics, 1 ≤ e.requests) := by
  have hperm : (timeSeries iv metrics).Perm
      ((timeIntervals iv metrics).entries.map (fun e => TimeInterval.finish e.1 e.2)) := by
    unfold timeSeries
    exact List.perm_insertionSort _ _
  refine ⟨?_, ?_, ?_⟩
  · rw [(hperm.map (fun e => e.requests)).sum_eq, List.map_map]
    have h := groupFold_sum (timeKey iv) (fun _ => TimeInterval.init) TimeInterval.add
      (fun i => i.requests) (fun _ => 1) (fun _ => rfl) (fun _ _ => rfl) metrics
    have hl : (summary metrics).totalRequests = metrics.length := rfl
    rw [hl]
    simp only [List.map_const', List.sum_replicate, smul_eq_mul, mul_one] at h
    rw [← h]
    rfl
  · rw [(hperm.map (fun e => e.errors)).sum_eq, List.map_map]
    have h := groupFold_sum (timeKey iv) (fun _ => TimeInterval.init) TimeInterval.add
      (fun i => i.errors) (fun m => if m.error.isError then 1 else 0) (fun _ => rfl)
      (fun b x => by cases he : x.error.isError <;> simp [TimeInterval.add, he]) metrics
    have hl : (summary metrics).errorCount =
        (metrics.filter (fun m => m.error.isError)).length := rfl
    rw [hl, ← errors_sum, ← h]
    rfl
  · intro e he
    obtain ⟨x, xs, _, hfin⟩ := timeSeries_entry iv metrics e he
    rw [timeInterval_foldl_add] at hfin
    rw [hfin]
    simp [TimeInterval.finish, TimeInterval.init]

/-- Claim C30. In every response of the live rolling window the buckets
partition the fetched records: the request counts of the buckets add up to
the summary's `totalRequests`, their error counts to the summary's
`errorCount`, and every bucket holds at least one request. -/
theorem getRealtimeMetrics_partition (st : Server) (env : QueryEnv) (userId projectId : String)
    (range : Option ℚ) (data : RealtimeData)
    (hreply : getRealtimeMetrics st env userId projectId range = Reply.ok data) :
    (data.timeSeries.map (fun e => e.requests)).sum = data.summary.totalRequests ∧
    (data.timeSeries.map (fun e => e.errors)).sum = data.summary.errorCount ∧
    (∀ e ∈ data.timeSeries, 1 ≤ e.requests) := by
  unfold getRealtimeMetrics at hreply
  split at hreply
  · cases hreply
  · split at hreply
    · cases hreply
    · split at hreply
      · cases hreply
      · cases hreply
        exact timeSeries_sums _ _

/-- A concrete query for C30: the owner of `demo` asks for the last hour of a
server holding the twenty-one records of `burst`. -/
theorem getRealtimeMetrics_partition_witness :
    ((timeSeries (interval 1) (realtimeFetch burst "p" 3660000 1)).map
        (fun e => e.requests)).sum =
      (summary (realtimeFetch burst "p" 3660000 1)).totalRequests ∧
    ((timeSeries (interval 1) (realtimeFetch burst "p" 3660000 1)).map
        (fun e => e.errors)).sum =
      (summary (realtimeFetch burst "p" 3660000 1)).errorCount ∧
    (∀ e ∈ timeSeries (interval 1) (realtimeFetch burst "p" 3660000 1), 1 ≤ e.requests) :=
  getRealtimeMetrics_partition demoServer ⟨3660000, true, true⟩ "u1" "p" (some 1)
    { summary := summary (realtimeFetch burst "p" 3660000 1)
      timeSeries := timeSeries (interval 1) (realtimeFetch burst "p" 3660000 1) }
    (by rfl)

/-! ### Historical trends and the ownership check -/

/-- A `$match` on `projectId` with a string matches no stored record, so the
pipeline of the trends returns nothing. -/
theorem trendsPipeline_string (store : List Metric) (s : String) (start finish : Int) :
    trendsPipeline store (MatchId.string s) start finish = [] := by
  simp [trendsPipeline, MatchId.matches, groupFold, JSMap.empty]

/-- The trends handler never returns an entry. -/
theorem getHistoricalTrends_trends (st : Server) (env : QueryEnv) (userId projectId : String)
    (period metric : Option String) (data : TrendsData)
    (h : getHistoricalTrends st env userId projectId period metric = Reply.ok data) :
    data.trends = [] := by
  unfold getHistoricalTrends at h
  split at h
  · cases h
  · split at h
    · cases h
    · split at h
      · cases h
      · cases h
        simp [trendsData, trendsPipeline_string]

/-- Claim C21, the code at the failing input: tenant `p` has records on 5
January and on 8 January 1970, both inside the seven days that end at the
start of 11 January, and its owner asks for the trends of period `7d`. The
handler returns no entry at all, because its `$match` compares the stored
ObjectId with the string of the route parameter; the same pipeline with the
ObjectId, as the sibling `getRoutePerformance` builds it, returns the two
days in order. -/
theorem getHistoricalTrends_no_entries :
    (∀ m ∈ weekSample, m.projectId = some "p" ∧
      864000000 - days "7d" * 24 * 60 * 60 * 1000 ≤ m.timestamp ∧ m.timestamp ≤ 864000000) ∧
    weekSample.map dayOf = [⟨1970, 1, 5⟩, ⟨1970, 1, 5⟩, ⟨1970, 1, 8⟩] ∧
    getHistoricalTrends weekServer ⟨864000000, true, true⟩ "u1" "p" (some "7d")
        (some "requests") =
      Reply.ok { period := "7d", metric := "requests", trends := [] } ∧
    (trendsPipeline weekSample (MatchId.objectId "p")
        (864000000 - days "7d" * 24 * 60 * 60 * 1000) 864000000).map
          (fun g => (g._id, g.totalRequests, g.totalErrors, g.maxResponseTime)) =
      [(⟨1970, 1, 5⟩, 2, 1, 300), (⟨1970, 1, 8⟩, 1, 0, 50)] := by
  refine ⟨by decide, by decide, ?_, by decide⟩
  have h : getHistoricalTrends weekServer ⟨864000000, true, true⟩ "u1" "p" (some "7d")
      (some "requests") = Reply.ok (trendsData weekServer.metrics (MatchId.string "p")
        864000000 (some "7d") (some "requests")) := by
    rfl
  rw [h]
  simp [trendsData, trendsPipeline_string, orElse]

/-- Claim C29. The trends do not depend on the metric selector: for the same
store, `$match` value, period and time, two values of the `metric` parameter
give the same `trends` list and the same `period`; the handler's replies
differ at most in the `metric` field, which repeats the selector (`requests`
when it is absent or empty). -/
theorem trends_ignore_metric (st : Server) (env : QueryEnv) (userId projectId : String)
    (store : List Metric) (matchId : MatchId) (now : Int)
    (period metric₁ metric₂ : Option String) :
    (trendsData store matchId now period metric₁).trends =
      (trendsData store matchId now period metric₂).trends ∧
    (trendsData store matchId now period metric₁).period =
      (trendsData store matchId now period metric₂).period ∧
    (trendsData store matchId now period metric₁).metric =
      (orElse metric₁ (some "requests")).getD "requests" ∧
    (getHistoricalTrends st env userId projectId period metric₁).data?.map
        (fun d => (d.period, d.trends)) =
      (getHistoricalTrends st env userId projectId period metric₂).data?.map
        (fun d => (d.period, d.trends)) ∧
    ((getHistoricalTrends st env userId projectId period metric₁).data? = none →
      getHistoricalTrends st env userId projectId period metric₁ =
        getHistoricalTrends st env userId projectId period metric₂) := by
  refine ⟨rfl, rfl, rfl, ?_, ?_⟩
  · unfold getHistoricalTrends
    split
    · rfl
    · split
      · rfl
      · split <;> rfl
  · unfold getHistoricalTrends
    split
    · intro _; rfl
    · split
      · intro _; rfl
      · split
        · intro _; rfl
        · intro h; cases h

/-- Claim C22 fails as stated: nobody but `u1` owns the tenant `acme`, the
ownership lookup throws, and the live window answers 500, not 404. -/
theorem notFound_counterexample :
    Project.findOwned (Server.start [acme]).projects "65f0c0ffee0123456789abcd"
        "intruder" = none ∧
    getRealtimeMetrics (Server.start [acme]) ⟨0, false, true⟩ "intruder"
        "65f0c0ffee0123456789abcd" none ≠ Reply.notFound := by
  decide

/-- Claim C22, amended. When the registry holds no tenant with the requested
id owned by the calling user, each of the four aggregation operations returns
404 `Project not found` if the ownership lookup completes and 500 if it
throws; in both cases the reply carries no data and is the same whatever
the metric store holds. -/
theorem aggregation_not_owned (st : Server) (env : QueryEnv) (userId projectId : String)
    (range : Option ℚ) (period metric : Option String)
    (hnone : Project.findOwned st.projects projectId userId = none) :
    (env.registryUp = true →
      getRealtimeMetrics st env userId projectId range = Reply.notFound ∧
      getRoutePerformance st env userId projectId range = Reply.notFound ∧
      getErrorAnalysis st env userId projectId range = Reply.notFound ∧
      getHistoricalTrends st env userId projectId period metric = Reply.notFound) ∧
    (env.registryUp = false →
      getRealtimeMetrics st env userId projectId range = Reply.serverError ∧
      getRoutePerformance st env userId projectId range = Reply.serverError ∧
      getErrorAnalysis st env userId projectId range = Reply.serverError ∧
      getHistoricalTrends st env userId projectId period metric = Reply.serverError) ∧
    (getRealtimeMetrics st env userId projectId range).data? = none ∧
    (getRoutePerformance st env userId projectId range).data? = none ∧
    (getErrorAnalysis st env userId projectId range).data? = none ∧
    (getHistoricalTrends st env userId projectId period metric).data? = none ∧
    (∀ metrics : List Metric,
      getRealtimeMetrics { st with metrics := metrics } env userId projectId range =
        getRealtimeMetrics st env userId projectId range ∧
      getRoutePerformance { st with metrics := metrics } env userId projectId range =
        getRoutePerformance st env userId projectId range ∧
      getErrorAnalysis { st with metrics := metrics } env userId projectId range =
        getErrorAnalysis st env userId projectId range ∧
      getHistoricalTrends { st with metrics := metrics } env userId projectId period metric =
        getHistoricalTrends st env userId projectId period metric) := by
  cases hup : env.registryUp <;>
    simp [getRealtimeMetrics, getRoutePerformance, getErrorAnalysis, getHistoricalTrends,
      hup, hnone, Reply.data?]

/-- A concrete query for C22: a user who does not own `acme` asks for it. -/
theorem aggregation_not_owned_witness :
    getRealtimeMetrics (Server.start [acme]) ⟨0, true, true⟩ "intruder"
        "65f0c0ffee0123456789abcd" none = Reply.notFound ∧
    getHistoricalTrends (Server.start [acme]) ⟨0, true, true⟩ "intruder"
        "65f0c0ffee0123456789abcd" none none = Reply.notFound :=
  let h := aggregation_not_owned (Server.start [acme]) ⟨0, true, true⟩ "intruder"
    "65f0c0ffee0123456789abcd" none none none (by decide)
  ⟨(h.1 rfl).1, (h.1 rfl).2.2.2⟩

/-! ### Project deletion -/

/-- The track route changes neither the registry nor the `io` setting. -/
theorem trackAnalytics_frame (st : Server) (req : Req) (env : Env) :
    (trackAnalytics st req env).1.projects = st.projects ∧
      (trackAnalytics st req env).1.io = st.io := by
  rcases trackAnalytics_forms st req env with
    ⟨r, _, h⟩ | ⟨r, requests, _, h⟩ | ⟨apiKey, doc, requests, _, _, h⟩
  · rw [h]; exact ⟨rfl, rfl⟩
  · rw [h]; exact ⟨rfl, rfl⟩
  · rw [h]
    exact send_frame _ _ _ _ _

/-- Claim C25 fails as stated: tenant `demo` has records; `deleteProject`
removes it from the registry (it does not deactivate it), and when the
deletion of the records then fails, the records that reference it remain. -/
theorem deleteProject_counterexample :
    (demo ∈ weekServer.projects ∧ ∃ m ∈ weekServer.metrics, m.projectId = some demo.id) ∧
    (deleteProject weekServer ⟨0, true, true⟩ "u1" "p").1.projects = [] ∧
    (deleteProject weekServer ⟨0, true, false⟩ "u1" "p").1.projects = [] ∧
    (deleteProject weekServer ⟨0, true, false⟩ "u1" "p").1.metrics = weekSample := by
  decide

/-- Claim C25, amended. The registry changes only through `deleteProject`,
which removes the caller's tenant physically and, when it succeeds, leaves no
metric record that references the removed id, while keeping all other
records; the track route leaves the registry as it is. -/
theorem deleteProject_cascade (st : Server) (env : QueryEnv) (userId id : String)
    (hok : (deleteProject st env userId id).2 = Reply.ok ()) :
    (∃ p ∈ st.projects, p.id = id ∧ p.owner = userId ∧
      (deleteProject st env userId id).1.projects = st.projects.erase p) ∧
    (∀ m ∈ (deleteProject st env userId id).1.metrics, m.projectId ≠ some id) ∧
    (deleteProject st env userId id).1.metrics =
      st.metrics.filter (fun m => decide (m.projectId ≠ some id)) ∧
    (∀ (req : Req) (tenv : Env), (trackAnalytics st req tenv).1.projects = st.projects) := by
  unfold deleteProject at hok ⊢
  split at hok
  · cases hok
  · rename_i hup
    rw [if_neg hup]
    cases hf : Project.findOwned st.projects id userId with
    | none => rw [hf] at hok; cases hok
    | some p =>
      rw [hf] at hok
      dsimp only at hok ⊢
      split at hok
      · cases hok
      · rename_i hm
        rw [if_neg hm]
        have hp := List.find?_some hf
        simp only [Bool.and_eq_true, decide_eq_true_eq] at hp
        refine ⟨⟨p, List.mem_of_find?_eq_some hf, hp.1, hp.2, rfl⟩, ?_, rfl,
          fun req tenv => (trackAnalytics_frame st req tenv).1⟩
        intro m hm'
        simpa using (List.mem_filter.mp hm').2

/-- A concrete deletion for C25: the owner deletes `demo`, both stores answer. -/
theorem deleteProject_cascade_witness :
    (∃ p ∈ weekServer.projects, p.id = "p" ∧ p.owner = "u1" ∧
      (deleteProject weekServer ⟨0, true, true⟩ "u1" "p").1.projects =
        weekServer.projects.erase p) ∧
    (deleteProject weekServer ⟨0, true, true⟩ "u1" "p").1.metrics =
      weekServer.metrics.filter (fun m => decide (m.projectId ≠ some "p")) :=
  let h := deleteProject_cascade weekServer ⟨0, true, true⟩ "u1" "p" (by decide)
  ⟨h.1, h.2.2.1⟩

/-! ### Live fan-out -/

/-- What the track route stores and emits: nothing, or one record of a tenant
and, when `io` is set, one event to the tenant's room that repeats the
record's route, latency, status and time. -/
theorem trackAnalytics_effect (st : Server) (req : Req) (env : Env) :
    ((trackAnalytics st req env).1.metrics = st.metrics ∧
      (trackAnalytics st req env).1.emitted = st.emitted) ∨
    (∃ hex record, record.projectId = some hex ∧
      (trackAnalytics st req env).1.metrics = st.metrics ++ [record] ∧
      (trackAnalytics st req env).1.emitted =
        if st.io then
          st.emitted ++ [{ room := "project-" ++ hex
                           route := record.route
                           responseTime := record.performance.responseTime
                           statusCode := record.response.statusCode
                           timestamp := record.timestamp }]
        else st.emitted) := by
  rcases trackAnalytics_forms st req env with
    ⟨r, _, h⟩ | ⟨r, requests, _, h⟩ | ⟨apiKey, doc, requests, _, _, h⟩
  · left; rw [h]; exact ⟨rfl, rfl⟩
  · left; rw [h]; exact ⟨rfl, rfl⟩
  · rw [h]
    dsimp only
    rw [send_metrics, send_emitted_eq]
    cases hp : env.persistOk with
    | false => left; exact ⟨rfl, rfl⟩
    | true =>
      right
      refine ⟨doc._id.hex, _, rfl, rfl, ?_⟩
      cases hio : st.io
      · simp [hio]
      · simp [hio]
        exact ⟨rfl, rfl, rfl, rfl⟩

/-- The rooms' prefix can be cancelled. -/
theorem room_injective (a b : String) (h : "project-" ++ a = "project-" ++ b) : a = b := by
  have hdata := congrArg String.data h
  simp only [String.data_append] at hdata
  exact String.ext (List.append_cancel_left hdata)

/-- A socket stays in a room through every step but its own disconnect. -/
theorem Hub.step_keeps_member (h : Hub) (e : HubEvent) (s room : String)
    (hmem : (s, room) ∈ h.rooms) (hne : e ≠ HubEvent.disconnect s) :
    (s, room) ∈ (h.step e).rooms := by
  cases e with
  | joinProject socket projectId =>
    simp only [Hub.step]
    split
    · exact hmem
    · exact List.mem_append_left _ hmem
  | leaveProject socket projectId => exact hmem
  | disconnect socket =>
    simp only [Hub.step]
    rw [List.mem_filter]
    refine ⟨hmem, ?_⟩
    have : s ≠ socket := fun hs => hne (by rw [hs])
    simpa using this
  | track c env => exact hmem

/-- A socket enters a room only by joining it. -/
theorem Hub.step_keeps_outsider (h : Hub) (e : HubEvent) (s Y : String)
    (hout : (s, "project-" ++ Y) ∉ h.rooms) (hne : e ≠ HubEvent.joinProject s Y) :
    (s, "project-" ++ Y) ∉ (h.step e).rooms := by
  cases e with
  | joinProject socket projectId =>
    simp only [Hub.step]
    split
    · exact hout
    · intro hmem
      rcases List.mem_append.mp hmem with hmem | hmem
      · exact hout hmem
      · rw [List.mem_singleton] at hmem
        have h1 : s = socket := (Prod.mk.inj hmem).1
        have h2 : Y = projectId := room_injective _ _ (Prod.mk.inj hmem).2
        exact hne (by rw [h1, h2])
  | leaveProject socket projectId => exact hout
  | disconnect socket =>
    simp only [Hub.step]
    intro hmem
    exact hout (List.mem_filter.mp hmem).1
  | track c env => exact hout

/-- No step changes the `io` setting. -/
theorem Hub.step_io (h : Hub) (e : HubEvent) : (h.step e).server.io = h.server.io := by
  cases e with
  | joinProject socket projectId => rfl
  | leaveProject socket projectId => rfl
  | disconnect socket => rfl
  | track c env => exact (trackAnalytics_frame h.server (trackReq c) env).2

/-- Membership, absence and the `io` setting through a sequence of steps. -/
theorem Hub.run_keeps (events : List HubEvent) (s X Y : String) :
    ∀ h : Hub, (s, "project-" ++ X) ∈ h.rooms → (s, "project-" ++ Y) ∉ h.rooms →
      (∀ e ∈ events, e ≠ HubEvent.disconnect s ∧ e ≠ HubEvent.joinProject s Y) →
      (s, "project-" ++ X) ∈ (h.run events).rooms ∧
      (s, "project-" ++ Y) ∉ (h.run events).rooms ∧
      (h.run events).server.io = h.server.io := by
  induction events with
  | nil => intro h hin hout _; exact ⟨hin, hout, rfl⟩
  | cons e rest ih =>
    intro h hin hout hall
    have he := hall e (List.mem_cons_self _ _)
    have := ih (h.step e) (Hub.step_keeps_member h e s _ hin he.1)
      (Hub.step_keeps_outsider h e s Y hout he.2)
      (fun e' he' => hall e' (List.mem_cons_of_mem _ he'))
    rw [Hub.step_io] at this
    exact this

/-- The packets of a track step: what the route has emitted, sent to the
sockets in the rooms. -/
theorem Hub.step_track_delivered (h : Hub) (c : TrackCall) (env : Env) :
    (h.step (HubEvent.track c env)).delivered =
      h.delivered ++ h.fanout
        ((trackAnalytics h.server (trackReq c) env).1.emitted.drop h.server.emitted.length) :=
  rfl

/-- A packet goes only to a socket in the event's room. -/
theorem Hub.mem_fanout (h : Hub) (published : List MetricUpdate) (s : String)
    (ev : MetricUpdate) :
    (s, ev) ∈ h.fanout published ↔ ev ∈ published ∧ (s, ev.room) ∈ h.rooms := by
  unfold Hub.fanout Hub.targets
  simp only [List.mem_flatMap, List.mem_map, List.mem_filter, decide_eq_true_eq,
    Prod.mk.injEq]
  constructor
  · rintro ⟨ev', hev', s', ⟨m, ⟨hm, hroom⟩, hs'⟩, hs, hev⟩
    subst hev
    subst hs
    refine ⟨hev', ?_⟩
    have : m = (s', ev'.room) := by rw [← hs', ← hroom]
    rw [← this]
    exact hm
  · rintro ⟨hev, hm⟩
    exact ⟨ev, hev, s, ⟨(s, ev.room), ⟨hm, rfl⟩, rfl⟩, rfl, rfl⟩

/-- The events that a track step publishes: none, or the single event of the
record it stores. -/
theorem Hub.track_published (h : Hub) (c : TrackCall) (env : Env) (record : Metric)
    (T : String) (hio : h.server.io = true) (hT : record.projectId = some T)
    (hstored : (trackAnalytics h.server (trackReq c) env).1.metrics =
      h.server.metrics ++ [record]) :
    (trackAnalytics h.server (trackReq c) env).1.emitted.drop h.server.emitted.length =
      [{ room := "project-" ++ T
         route := record.route
         responseTime := record.performance.responseTime
         statusCode := record.response.statusCode
         timestamp := record.timestamp }] := by
  rcases trackAnalytics_effect h.server (trackReq c) env with
    ⟨hm, _⟩ | ⟨hex, record', hhex, hm, he⟩
  · rw [hm] at hstored
    have := congrArg List.length hstored
    simp at this
  · rw [hm] at hstored
    have hrec : record' = record := by simpa using hstored
    subst hrec
    have hTeq : hex = T := by
      rw [hhex] at hT
      exact Option.some.inj hT
    subst hTeq
    rw [he, hio, if_pos rfl, List.drop_left]

/-- A socket in a tenant's room receives the event of a record stored for
that tenant. -/
theorem Hub.track_delivers (h : Hub) (s X : String) (c : TrackCall) (env : Env)
    (record : Metric) (hsub : (s, "project-" ++ X) ∈ h.rooms) (hio : h.server.io = true)
    (hX : record.projectId = some X)
    (hstored : (trackAnalytics h.server (trackReq c) env).1.metrics =
      h.server.metrics ++ [record]) :
    (s, { room := "project-" ++ X
          route := record.route
          responseTime := record.performance.responseTime
          statusCode := record.response.statusCode
          timestamp := record.timestamp }) ∈
      h.fanout ((trackAnalytics h.server (trackReq c) env).1.emitted.drop
        h.server.emitted.length) := by
  rw [Hub.track_published h c env record X hio hX hstored, Hub.mem_fanout]
  exact ⟨List.mem_singleton_self _, hsub⟩

/-- Claim C23. A socket that is in the room of tenant `X` and not in the
room of tenant `Y`, on a server with `io` set, through any later steps that
neither disconnect it nor join it to `Y`: for every record then stored for
`X` it is sent the record's event, and it is sent no event of the room of `Y`,
in particular not the event of a record stored for `Y`. -/
theorem fanout_subscription (h : Hub) (s X Y : String) (later : List HubEvent)
    (c : TrackCall) (env : Env)
    (hsub : (s, "project-" ++ X) ∈ h.rooms) (hnot : (s, "project-" ++ Y) ∉ h.rooms)
    (hio : h.server.io = true)
    (hlater : ∀ e ∈ later, e ≠ HubEvent.disconnect s ∧ e ≠ HubEvent.joinProject s Y) :
    ((h.run later).step (HubEvent.track c env)).delivered =
      (h.run later).delivered ++ (h.run later).fanout
        ((trackAnalytics (h.run later).server (trackReq c) env).1.emitted.drop
          (h.run later).server.emitted.length) ∧
    (∀ record, record.projectId = some X →
      (trackAnalytics (h.run later).server (trackReq c) env).1.metrics =
        (h.run later).server.metrics ++ [record] →
      (s, { room := "project-" ++ X
            route := record.route
            responseTime := record.performance.responseTime
            statusCode := record.response.statusCode
            timestamp := record.timestamp }) ∈
        (h.run later).fanout
          ((trackAnalytics (h.run later).server (trackReq c) env).1.emitted.drop
            (h.run later).server.emitted.length)) ∧
    (∀ ev, (s, ev) ∈ (h.run later).fanout
        ((trackAnalytics (h.run later).server (trackReq c) env).1.emitted.drop
          (h.run later).server.emitted.length) → ev.room ≠ "project-" ++ Y) ∧
    (∀ record, record.projectId = some Y →
      (trackAnalytics (h.run later).server (trackReq c) env).1.metrics =
        (h.run later).server.metrics ++ [record] →
      ∀ ev ∈ (trackAnalytics (h.run later).server (trackReq c) env).1.emitted.drop
          (h.run later).server.emitted.length,
        ev.room = "project-" ++ Y ∧
        (s, ev) ∉ (h.run later).fanout
          ((trackAnalytics (h.run later).server (trackReq c) env).1.emitted.drop
            (h.run later).server.emitted.length)) := by
  obtain ⟨hin, hout, hio'⟩ := Hub.run_keeps later s X Y h hsub hnot hlater
  rw [hio] at hio'
  have hnoY : ∀ ev, (s, ev) ∈ (h.run later).fanout
      ((trackAnalytics (h.run later).server (trackReq c) env).1.emitted.drop
        (h.run later).server.emitted.length) → ev.room ≠ "project-" ++ Y := by
    intro ev hev hroom
    have := ((Hub.mem_fanout _ _ _ _).mp hev).2
    rw [hroom] at this
    exact hout this
  refine ⟨rfl, ?_, hnoY, ?_⟩
  · intro record hX hstored
    exact Hub.track_delivers (h.run later) s X c env record hin hio' hX hstored
  · intro record hY hstored ev hev
    rw [Hub.track_published (h.run later) c env record Y hio' hY hstored] at hev
    have hroom : ev.room = "project-" ++ Y := by
      rw [List.mem_singleton.mp hev]
    exact ⟨hroom, fun hmem => hnoY ev hmem hroom⟩

/-- A concrete run for C23: socket `s1` has joined the room of tenant `p`; a
record is then stored for `p`, and `s1` is sent its event. -/
theorem fanout_subscription_witness :
    (("s1" : String), ({ room := "project-" ++ "p"
                         route := { path := "/track", method := "POST" }
                         responseTime := 5
                         statusCode := 200
                         timestamp := 1005 } : MetricUpdate)) ∈
      (subscribedHub.run []).fanout
        ((trackAnalytics (subscribedHub.run []).server (trackReq demoCall) quietEnv).1.emitted.drop
          (subscribedHub.run []).server.emitted.length) :=
  (fanout_subscription subscribedHub "s1" "p" "q" [] demoCall quietEnv (by decide) (by decide)
    (by decide) (by intro e he; cases he)).2.1
    (analyticsData { trackReq demoCall with projectId := some ⟨0, "p"⟩ }
      { statusCode := 200, contentType := some "application/json", contentLength := none }
      trackedJson 5 1005) (by decide) (by decide)

/-- Claim C24, the code at the failing input: socket `s1` joins the room of
tenant `p`, then sends `leave-project` for `p`, then a record is stored for
`p`. The server has no listener for `leave-project`, so the step changes
nothing: `s1` is still in the room and is sent the record's event. -/
theorem leaveProject_ignored :
    (demoHub.run [HubEvent.joinProject "s1" "p", HubEvent.leaveProject "s1" "p"]).rooms =
      [("s1", "project-p")] ∧
    (demoHub.run [HubEvent.joinProject "s1" "p", HubEvent.leaveProject "s1" "p",
      HubEvent.track demoCall quietEnv]).delivered.map (fun d => (d.1, d.2.room)) =
      [("s1", "project-p")] ∧
    (∀ (h : Hub) (s X : String), h.step (HubEvent.leaveProject s X) = h) := by
  refine ⟨by decide, by decide, fun _ _ _ => rfl⟩

/-- Claim C28. Handling `join-project` puts the socket in the room of the
given project id, whatever the server holds and whoever the socket belongs
to: the step reads neither the registry nor any user, leaves the server as it
is, and the socket is then sent the event of every record stored for that
id. -/
theorem joinProject_unconditional (h : Hub) (s projectId : String) :
    (s, "project-" ++ projectId) ∈ (h.step (HubEvent.joinProject s projectId)).rooms ∧
    (h.step (HubEvent.joinProject s projectId)).server = h.server ∧
    (∀ server : Server,
      ({ h with server := server }.step (HubEvent.joinProject s projectId)).rooms =
        (h.step (HubEvent.joinProject s projectId)).rooms) ∧
    (∀ (c : TrackCall) (env : Env) (record : Metric), h.server.io = true →
      record.projectId = some projectId →
      (trackAnalytics h.server (trackReq c) env).1.metrics = h.server.metrics ++ [record] →
      (s, { room := "project-" ++ projectId
            route := record.route
            responseTime := record.performance.responseTime
            statusCode := record.response.statusCode
            timestamp := record.timestamp }) ∈
        ((h.step (HubEvent.joinProject s projectId)).step (HubEvent.track c env)).delivered) := by
  have hmem : (s, "project-" ++ projectId) ∈
      (h.step (HubEvent.joinProject s projectId)).rooms := by
    simp only [Hub.step]
    split
    · assumption
    · exact List.mem_append_right _ (List.mem_singleton_self _)
  refine ⟨hmem, rfl, fun _ => rfl, ?_⟩
  intro c env record hio hrec hstored
  rw [Hub.step_track_delivered]
  exact List.mem_append_right _
    (Hub.track_delivers (h.step (HubEvent.joinProject s projectId)) s projectId c env record
      hmem hio hrec hstored)

end Insightify
